import Mathlib

/-!
Shallow embedding of the tunneling plugin
(`projects/gloo/pkg/plugins/tunneling/plugin.go`).

The plugin scans route configurations, rewrites tunneling-eligible routes to a
generated loopback ("self") cluster, strips and possibly re-originates the
transport socket of the original cluster, and generates one self cluster and
one self listener per original cluster name.  The external collaborators
(reference resolver, upstream directory, TLS resolver, config serializer) are
modelled as oracle functions bundled in `Externals`.
-/

namespace Tunneling

/-- Opaque serialized typed-configuration envelope (`anypb.Any`). -/
structure TypedAny where
  blob : String
deriving DecidableEq, Repr

/-- Envoy `TransportSocket`: a name plus an optional typed config. -/
structure TransportSocket where
  name : String
  typedConfig : Option TypedAny
deriving DecidableEq, Repr

/-- Envoy `HeaderValue` (key/value pair of a CONNECT header). -/
structure HeaderValue where
  key : String
  value : String
deriving DecidableEq, Repr

/-- Envoy `HeaderValueOption`: header plus the optional `Append` wrapper. -/
structure HeaderValueOption where
  header : HeaderValue
  append : Option Bool
deriving DecidableEq, Repr

/-- Envoy address: a pipe path or a socket address. -/
inductive Address where
  | pipe (path : String)
  | socket (host : String) (port : Nat)
deriving DecidableEq, Repr

/-- Envoy `Endpoint` (only the address is relevant here). -/
structure Endpoint where
  address : Option Address
deriving DecidableEq, Repr

/-- Envoy `LbEndpoint`. -/
structure LbEndpoint where
  endpoint : Option Endpoint
deriving DecidableEq, Repr

/-- Envoy `LocalityLbEndpoints`. -/
structure LocalityLbEndpoints where
  lbEndpoints : List LbEndpoint
deriving DecidableEq, Repr

/-- Envoy `ClusterLoadAssignment`. -/
structure ClusterLoadAssignment where
  clusterName : String
  endpoints : List LocalityLbEndpoints
deriving DecidableEq, Repr

/-- Envoy cluster discovery type. -/
inductive ClusterDiscoveryType where
  | static
  | strictDns
  | logicalDns
  | eds
  | originalDst
deriving DecidableEq, Repr

/-- Envoy `Cluster.TransportSocketMatch`. -/
structure TransportSocketMatch where
  name : String
  transportSocket : Option TransportSocket
deriving DecidableEq, Repr

/-- Protobuf duration (seconds only; the plugin uses a 5-second timeout). -/
structure Duration where
  seconds : Int
deriving DecidableEq, Repr

/-- Envoy `Cluster` (the fields read or written by the plugin). -/
structure Cluster where
  name : String
  clusterDiscoveryType : Option ClusterDiscoveryType
  connectTimeout : Option Duration
  transportSocket : Option TransportSocket
  transportSocketMatches : List TransportSocketMatch
  loadAssignment : Option ClusterLoadAssignment
deriving DecidableEq, Repr

/-- The tagged route-action variant: single cluster, weighted set, or
cluster-by-header. -/
inductive ClusterSpecifier where
  | cluster (name : String)
  | weightedClusters (clusters : List (String × Nat))
  | clusterHeader (header : String)
deriving DecidableEq, Repr

/-- Envoy `RouteAction` (the cluster specifier is the field the plugin touches). -/
structure RouteAction where
  clusterSpecifier : Option ClusterSpecifier
deriving DecidableEq, Repr

/-- Envoy `Route`; `routeAction = none` models a non-route action
(redirect, direct response), for which `GetRoute()` returns nil in Go. -/
structure Route where
  name : String
  routeAction : Option RouteAction
deriving DecidableEq, Repr

/-- Envoy `VirtualHost`. -/
structure VirtualHost where
  name : String
  routes : List Route
deriving DecidableEq, Repr

/-- Envoy `RouteConfiguration`. -/
structure RouteConfiguration where
  name : String
  virtualHosts : List VirtualHost
deriving DecidableEq, Repr

/-- Envoy listener `Filter`. -/
structure Filter where
  name : String
  typedConfig : Option TypedAny
deriving DecidableEq, Repr

/-- Envoy `FilterChain`. -/
structure FilterChain where
  filters : List Filter
deriving DecidableEq, Repr

/-- Envoy `Listener` (the fields the plugin generates). -/
structure Listener where
  name : String
  address : Option Address
  filterChains : List FilterChain
deriving DecidableEq, Repr

/-- Upstream reference produced by the external reference resolver. -/
structure UpstreamRef where
  ns : String
  name : String
deriving DecidableEq, Repr

/-- Opaque tunnel SSL descriptor carried by an upstream (`HttpConnectSslConfig`). -/
structure UpstreamSslConfig where
  token : Nat
deriving DecidableEq, Repr

/-- Upstream definition: the three fields the plugin reads. -/
structure Upstream where
  httpProxyHostname : Option String
  httpConnectHeaders : List HeaderValue
  httpConnectSslConfig : Option UpstreamSslConfig
deriving DecidableEq, Repr

/-- Opaque token standing for the snapshot's secret resources. -/
abbrev Secrets := Nat

/-- Opaque resolved TLS context returned by the external TLS resolver. -/
structure UpstreamTlsContext where
  token : Nat
deriving DecidableEq, Repr

/-- TCP proxy tunneling configuration (`TcpProxy_TunnelingConfig`). -/
structure TcpProxyTunnelingConfig where
  hostname : String
  headersToAdd : List HeaderValueOption
deriving DecidableEq, Repr

/-- TCP proxy filter configuration (`envoytcp.TcpProxy`); `statPre` models the
`StatPrefix` field and `cluster` the `TcpProxy_Cluster` specifier. -/
structure TcpProxy where
  statPre : String
  tunnelingConfig : Option TcpProxyTunnelingConfig
  cluster : String
deriving DecidableEq, Repr

/-- A strongly typed message handed to the external config serializer. -/
inductive Msg where
  | tlsContext (cfg : UpstreamTlsContext)
  | tcpProxy (cfg : TcpProxy)
deriving DecidableEq, Repr

/-- The external collaborators: reference resolver, upstream directory,
TLS resolver and config serializer. -/
structure Externals where
  clusterToUpstreamRef : String → Option UpstreamRef
  findUpstream : String → String → Option Upstream
  resolveUpstreamSslConfig : Secrets → UpstreamSslConfig → Option UpstreamTlsContext
  messageToAny : Msg → Except String TypedAny

/-- Name of the TLS transport socket (`wellknown.TransportSocketTls`). -/
def transportSocketTls : String := "envoy.transport_sockets.tls"

/-- Generated self-cluster name (`"solo_io_generated_self_cluster_" + cluster`). -/
def selfClusterName (cluster : String) : String :=
  "solo_io_generated_self_cluster_" ++ cluster

/-- Generated in-memory pipe address shared by the self cluster and the self
listener (`"@/" + cluster`). -/
def selfPipeName (cluster : String) : String :=
  "@/" ++ cluster

/-- Generated self-listener name (`"solo_io_generated_self_listener_" + cluster`). -/
def selfListenerName (cluster : String) : String :=
  "solo_io_generated_self_listener_" ++ cluster

/-- The loopback cluster built by `generateSelfCluster` in the source: static
discovery, 5 second connect timeout, a single endpoint at the pipe address,
and the supplied transport socket taken verbatim. -/
def generateSelfCluster (selfCluster selfPipe : String)
    (originalTransportSocket : Option TransportSocket) : Cluster :=
  { name := selfCluster
    clusterDiscoveryType := some .static
    connectTimeout := some { seconds := 5 }
    transportSocket := originalTransportSocket
    transportSocketMatches := []
    loadAssignment := some
      { clusterName := selfCluster
        endpoints :=
          [{ lbEndpoints :=
              [{ endpoint := some { address := some (.pipe selfPipe) } }] }] } }

/-- The TCP proxy filter configuration built inside
`generateForwardingTcpListener` in the source. -/
def tcpProxyCfg (cluster tunnelingHostname : String)
    (tunnelingHeadersToAdd : List HeaderValueOption) : TcpProxy :=
  { statPre := "soloioTcpStats" ++ cluster
    tunnelingConfig := some { hostname := tunnelingHostname
                              headersToAdd := tunnelingHeadersToAdd }
    cluster := cluster }

/-- The loopback listener built by `generateForwardingTcpListener` in the
source: bound to the pipe address, one filter chain with one filter named
`"tcp"` whose typed config is the serialized TCP proxy configuration.  Fails
exactly when the config serializer fails. -/
def generateForwardingTcpListener (ext : Externals)
    (cluster selfPipe tunnelingHostname : String)
    (tunnelingHeadersToAdd : List HeaderValueOption) : Except String Listener :=
  match ext.messageToAny (.tcpProxy (tcpProxyCfg cluster tunnelingHostname tunnelingHeadersToAdd)) with
  | .error e => .error e
  | .ok typedConfig => .ok
      { name := "solo_io_generated_self_listener_" ++ cluster
        address := some (.pipe selfPipe)
        filterChains := [{ filters := [{ name := "tcp", typedConfig := some typedConfig }] }] }

/-- The CONNECT header list built by the loop over `us.GetHttpConnectHeaders()`
in the source: each header is copied and its `Append` wrapper set to false. -/
def tunnelingHeadersOf (headers : List HeaderValue) : List HeaderValueOption :=
  headers.foldl
    (fun acc header =>
      acc ++ [{ header := { key := header.key, value := header.value }
                append := some false }])
    []

/-- The cluster name a route's action targets, when the action is the
single-cluster variant with a non-empty name (`rtAction.GetCluster() != ""`). -/
def routeCluster (rt : Route) : Option String :=
  match rt.routeAction with
  | none => none
  | some rtAction =>
    match rtAction.clusterSpecifier with
    | some (.cluster c) => if c = "" then none else some c
    | _ => none

/-- In-place rewrite of a route's action to target the given cluster
(`rtAction.ClusterSpecifier = &...RouteAction_Cluster{Cluster: selfCluster}`). -/
def rewriteRoute (rt : Route) (selfCluster : String) : Route :=
  { rt with routeAction := some { clusterSpecifier := some (.cluster selfCluster) } }

/-- Mutable state threaded through the scan: the (in-place mutated) input
cluster list, the per-pass processed set, and the two generated outputs. -/
structure ScanState where
  clusters : List Cluster
  processedClusters : List String
  generatedClusters : List Cluster
  generatedListeners : List Listener
deriving DecidableEq, Repr

/-- Outcome of a scan step: continue normally, abort the scan softly (data
error: the partial result is still returned as success), or abort with a hard
error (serialization failure).  Each outcome carries the mutated value and
state, matching Go's in-place mutation semantics. -/
inductive Scan (α : Type) where
  | cont (a : α) (st : ScanState)
  | softAbort (a : α) (st : ScanState)
  | hardError (a : α) (st : ScanState) (e : String)
deriving DecidableEq, Repr

/-- The value carried by a scan outcome. -/
def Scan.val : Scan α → α
  | .cont a _ => a
  | .softAbort a _ => a
  | .hardError a _ _ => a

/-- The state carried by a scan outcome. -/
def Scan.stOf : Scan α → ScanState
  | .cont _ st => st
  | .softAbort _ st => st
  | .hardError _ st _ => st

/-- Map the carried value of a scan outcome. -/
def Scan.map (f : α → β) : Scan α → Scan β
  | .cont a st => .cont (f a) st
  | .softAbort a st => .softAbort (f a) st
  | .hardError a st e => .hardError (f a) st e

/-- Outcome of the inner loop over `inClusters`: the mutated cluster list plus
the recorded pre-mutation transport socket, or an abort. -/
inductive ClusterScan where
  | done (clusters : List Cluster) (originalTransportSocket : Option TransportSocket)
  | softAbort (clusters : List Cluster)
  | hardError (clusters : List Cluster) (e : String)
deriving DecidableEq, Repr

/-- The inner loop of `GeneratedResources` over `inClusters` (source lines
105-139): find the first cluster with the target name, record its transport
socket, clear the socket and the socket matches in place, and, when the
upstream carries a tunnel SSL descriptor, resolve and serialize it and attach
the resulting TLS transport socket; then break. -/
def updateInClusters (ext : Externals) (secrets : Secrets) (us : Upstream)
    (cluster : String) : List Cluster → ClusterScan
  | [] => .done [] none
  | inCluster :: rest =>
    if inCluster.name = cluster then
      let originalTransportSocket := inCluster.transportSocket
      let stripped := { inCluster with transportSocket := none, transportSocketMatches := [] }
      match us.httpConnectSslConfig with
      | none => .done (stripped :: rest) originalTransportSocket
      | some ssl =>
        match ext.resolveUpstreamSslConfig secrets ssl with
        | none => .softAbort (stripped :: rest)
        | some cfg =>
          match ext.messageToAny (.tlsContext cfg) with
          | .error e => .hardError (stripped :: rest) e
          | .ok typedConfig =>
            .done ({ stripped with
                      transportSocket := some { name := transportSocketTls
                                                typedConfig := some typedConfig } } :: rest)
              originalTransportSocket
    else
      match updateInClusters ext secrets us cluster rest with
      | .done cs ts => .done (inCluster :: cs) ts
      | .softAbort cs => .softAbort (inCluster :: cs)
      | .hardError cs e => .hardError (inCluster :: cs) e

/-- Processing of one tunneling-eligible route (source lines 84-146): rewrite
the action to the self cluster, then, unless the cluster was already processed,
mutate the original cluster, generate the self cluster and self listener, and
mark the cluster processed. -/
def processEligible (ext : Externals) (secrets : Secrets) (st : ScanState)
    (rt : Route) (cluster : String) (us : Upstream) (tunnelingHostname : String) : Scan Route :=
  let rt' := rewriteRoute rt (selfClusterName cluster)
  if cluster ∈ st.processedClusters then .cont rt' st
  else
    match updateInClusters ext secrets us cluster st.clusters with
    | .softAbort cs => .softAbort rt' { st with clusters := cs }
    | .hardError cs e => .hardError rt' { st with clusters := cs } e
    | .done cs ts =>
      let st' := { st with
                    clusters := cs
                    generatedClusters := st.generatedClusters ++
                      [generateSelfCluster (selfClusterName cluster) (selfPipeName cluster) ts] }
      match generateForwardingTcpListener ext cluster (selfPipeName cluster)
          tunnelingHostname (tunnelingHeadersOf us.httpConnectHeaders) with
      | .error e => .hardError rt' st' e
      | .ok l =>
        .cont rt' { st' with
                     generatedListeners := st'.generatedListeners ++ [l]
                     processedClusters := st'.processedClusters ++ [cluster] }

/-- Processing of one route (source lines 59-147): skip non-single-cluster
actions, soft-abort on reference-parse or upstream-lookup failure, skip
upstreams without a tunneling hostname, otherwise process as eligible. -/
def processRoute (ext : Externals) (secrets : Secrets) (st : ScanState) (rt : Route) : Scan Route :=
  match routeCluster rt with
  | none => .cont rt st
  | some cluster =>
    match ext.clusterToUpstreamRef cluster with
    | none => .softAbort rt st
    | some ref =>
      match ext.findUpstream ref.ns ref.name with
      | none => .softAbort rt st
      | some us =>
        if us.httpProxyHostname.getD "" = "" then .cont rt st
        else processEligible ext secrets st rt cluster us (us.httpProxyHostname.getD "")

/-- Left-to-right scan of a list, threading the state and short-circuiting on
either kind of abort; elements after an abort are left untouched. -/
def scanList (f : ScanState → α → Scan α) : ScanState → List α → Scan (List α)
  | st, [] => .cont [] st
  | st, a :: rest =>
    match f st a with
    | .softAbort a' st' => .softAbort (a' :: rest) st'
    | .hardError a' st' e => .hardError (a' :: rest) st' e
    | .cont a' st' =>
      match scanList f st' rest with
      | .cont as st'' => .cont (a' :: as) st''
      | .softAbort as st'' => .softAbort (a' :: as) st''
      | .hardError as st'' e => .hardError (a' :: as) st'' e

/-- Scan of all routes of a virtual host. -/
def processRoutes (ext : Externals) (secrets : Secrets) :
    ScanState → List Route → Scan (List Route) :=
  scanList (processRoute ext secrets)

/-- Scan of one virtual host. -/
def processVirtualHost (ext : Externals) (secrets : Secrets) (st : ScanState)
    (vh : VirtualHost) : Scan VirtualHost :=
  (processRoutes ext secrets st vh.routes).map (fun rts => { vh with routes := rts })

/-- Scan of all virtual hosts of a route configuration. -/
def processVirtualHosts (ext : Externals) (secrets : Secrets) :
    ScanState → List VirtualHost → Scan (List VirtualHost) :=
  scanList (processVirtualHost ext secrets)

/-- Scan of one route configuration. -/
def processRouteConfiguration (ext : Externals) (secrets : Secrets) (st : ScanState)
    (rc : RouteConfiguration) : Scan RouteConfiguration :=
  (processVirtualHosts ext secrets st rc.virtualHosts).map
    (fun vhs => { rc with virtualHosts := vhs })

/-- The triple-nested scan of `GeneratedResources` over all route
configurations, virtual hosts and routes. -/
def scanRouteConfigurations (ext : Externals) (secrets : Secrets) :
    ScanState → List RouteConfiguration → Scan (List RouteConfiguration) :=
  scanList (processRouteConfiguration ext secrets)

/-- Initial scan state of one pass: the input clusters, an empty processed set
and empty generated outputs. -/
def initState (inClusters : List Cluster) : ScanState :=
  { clusters := inClusters
    processedClusters := []
    generatedClusters := []
    generatedListeners := [] }

/-- The five return values of `GeneratedResources`; `none` models a nil Go
slice or a nil error. -/
structure GRReturn where
  retClusters : Option (List Cluster)
  retEndpoints : Option (List ClusterLoadAssignment)
  retRouteConfigurations : Option (List RouteConfiguration)
  retListeners : Option (List Listener)
  retError : Option String
deriving DecidableEq, Repr

/-- Full observable outcome of `GeneratedResources`: the in-place mutated
route configurations and cluster list as the caller sees them afterwards, plus
the five-tuple return value. -/
structure GROutput where
  routeConfigurations : List RouteConfiguration
  clusters : List Cluster
  ret : GRReturn
deriving DecidableEq, Repr

/-- The plugin entry point `GeneratedResources` (source lines 41-153).  On a
completed scan or a soft abort it returns the generated clusters and listeners
with a nil error; on a hard serialization error it returns nil for all four
resource outputs and the error. -/
def GeneratedResources (ext : Externals) (secrets : Secrets)
    (inClusters : List Cluster) (_inEndpoints : List ClusterLoadAssignment)
    (inRouteConfigurations : List RouteConfiguration)
    (_inListeners : List Listener) : GROutput :=
  match scanRouteConfigurations ext secrets (initState inClusters) inRouteConfigurations with
  | .cont rcs st =>
    { routeConfigurations := rcs
      clusters := st.clusters
      ret := { retClusters := some st.generatedClusters
               retEndpoints := none
               retRouteConfigurations := none
               retListeners := some st.generatedListeners
               retError := none } }
  | .softAbort rcs st =>
    { routeConfigurations := rcs
      clusters := st.clusters
      ret := { retClusters := some st.generatedClusters
               retEndpoints := none
               retRouteConfigurations := none
               retListeners := some st.generatedListeners
               retError := none } }
  | .hardError rcs st e =>
    { routeConfigurations := rcs
      clusters := st.clusters
      ret := { retClusters := none
               retEndpoints := none
               retRouteConfigurations := none
               retListeners := none
               retError := some e } }

/-- The upstream a cluster name resolves to: reference parsing followed by the
directory lookup. -/
def upstreamFor (ext : Externals) (cluster : String) : Option Upstream :=
  match ext.clusterToUpstreamRef cluster with
  | none => none
  | some ref => ext.findUpstream ref.ns ref.name

/-- A cluster name is tunneling-eligible when it is non-empty, its reference
parses, its upstream is found, and that upstream has a non-empty tunneling
hostname.  Eligibility depends only on the externals and the name. -/
def tunnelingEligible (ext : Externals) (cluster : String) : Bool :=
  (cluster != "") &&
    (match upstreamFor ext cluster with
     | none => false
     | some us => us.httpProxyHostname.getD "" != "")

/-- Cluster names referenced by a single route. -/
def routeRefsOf (rt : Route) : List String :=
  (routeCluster rt).toList

/-- Cluster names referenced by the routes of a virtual host. -/
def vhRefs (vh : VirtualHost) : List String :=
  vh.routes.flatMap routeRefsOf

/-- Cluster names referenced inside one route configuration. -/
def rcRefs (rc : RouteConfiguration) : List String :=
  rc.virtualHosts.flatMap vhRefs

/-- Cluster names referenced by single-cluster routes anywhere in the input
route configurations. -/
def routeRefs (rcs : List RouteConfiguration) : List String :=
  rcs.flatMap rcRefs

/-- True when the pass scans every route without either kind of abort. -/
def scanCompleted (ext : Externals) (secrets : Secrets)
    (inClusters : List Cluster) (rcs : List RouteConfiguration) : Bool :=
  match scanRouteConfigurations ext secrets (initState inClusters) rcs with
  | .cont _ _ => true
  | _ => false

/-- The processed-cluster set at the end of a pass. -/
def processedOf (ext : Externals) (secrets : Secrets)
    (inClusters : List Cluster) (rcs : List RouteConfiguration) : List String :=
  (scanRouteConfigurations ext secrets (initState inClusters) rcs).stOf.processedClusters

/-- First cluster with the given name, mirroring the linear search of the
inner loop. -/
def findCluster (cluster : String) : List Cluster → Option Cluster
  | [] => none
  | cl :: rest => if cl.name = cluster then some cl else findCluster cluster rest

/-- A cluster with its transport socket and transport socket matches cleared. -/
def stripCluster (cl : Cluster) : Cluster :=
  { cl with transportSocket := none, transportSocketMatches := [] }

/-- Replace the first cluster with the given name by its stripped version. -/
def stripFirst (cluster : String) : List Cluster → List Cluster
  | [] => []
  | cl :: rest =>
    if cl.name = cluster then stripCluster cl :: rest
    else cl :: stripFirst cluster rest

/-- Replace the first cluster with the given name by its stripped version
carrying the re-originated TLS transport socket. -/
def setFirstTls (cluster : String) (typedConfig : TypedAny) : List Cluster → List Cluster
  | [] => []
  | cl :: rest =>
    if cl.name = cluster then
      { stripCluster cl with
         transportSocket := some { name := transportSocketTls
                                   typedConfig := some typedConfig } } :: rest
    else cl :: setFirstTls cluster typedConfig rest

/-- Transport socket of the first cluster with the given name (none when the
cluster is absent or carries no socket): the value recorded before mutation. -/
def origTS (cls : List Cluster) (cluster : String) : Option TransportSocket :=
  match findCluster cluster cls with
  | some cl => cl.transportSocket
  | none => none

/-- All endpoint addresses of a cluster, in order. -/
def endpointAddresses (cl : Cluster) : List Address :=
  match cl.loadAssignment with
  | none => []
  | some la =>
    la.endpoints.flatMap fun le =>
      le.lbEndpoints.flatMap fun lb =>
        match lb.endpoint with
        | some ep => ep.address.toList
        | none => []

/-! Generic lemmas about `scanList` and the `Scan.map` lifting used by the
virtual-host and route-configuration levels. -/

/-- A state predicate preserved by every continuing step of `f`. -/
def ContPres (P : ScanState → Prop) (f : ScanState → α → Scan α) : Prop :=
  ∀ st a a' st', f st a = .cont a' st' → P st → P st'

/-- A soft abort of `f` from a `P` state lands in a `Q` state. -/
def SoftReach (P Q : ScanState → Prop) (f : ScanState → α → Scan α) : Prop :=
  ∀ st a a' st', f st a = .softAbort a' st' → P st → Q st'

/-- A continuing step of `f` grows the processed set exactly by the eligible
referenced names of its element. -/
def ProcSpec (E : String → Prop) (g : α → List String) (f : ScanState → α → Scan α) : Prop :=
  ∀ st a a' st', f st a = .cont a' st' →
    ∀ c, c ∈ st'.processedClusters ↔ c ∈ st.processedClusters ∨ (c ∈ g a ∧ E c)

/-- A continuing or soft-aborting step of `f` grows the processed set by at
most the eligible referenced names of its element. -/
def ProcSub (E : String → Prop) (g : α → List String) (f : ScanState → α → Scan α) : Prop :=
  ∀ st a a' st', (f st a = .cont a' st' ∨ f st a = .softAbort a' st') →
    ∀ c, c ∈ st'.processedClusters → c ∈ st.processedClusters ∨ (c ∈ g a ∧ E c)

/-- A relation between the input and output element of every continuing step. -/
def OutRel (R : α → α → Prop) (f : ScanState → α → Scan α) : Prop :=
  ∀ st a a' st', f st a = .cont a' st' → R a a'

/-- The generated cluster and listener names track the processed set exactly,
and the processed set never holds duplicates. -/
def InvNames (st : ScanState) : Prop :=
  st.generatedClusters.map Cluster.name = st.processedClusters.map selfClusterName ∧
  st.generatedListeners.map Listener.name = st.processedClusters.map selfListenerName ∧
  st.processedClusters.Nodup

/-- Every name referenced by the output is either an untouched non-eligible
input reference, or the self-cluster name of an eligible input reference. -/
def RefsOK (E : String → Prop) (xs ys : List String) : Prop :=
  ∀ x ∈ ys, (x ∈ xs ∧ ¬ E x) ∨ ∃ d, d ∈ xs ∧ E d ∧ x = selfClusterName d

/-- The transport socket a processed original cluster ends up with: none when
its upstream has no tunnel SSL descriptor, or the re-originated TLS socket
built from the resolved and serialized descriptor. -/
def TsSpec (ext : Externals) (secrets : Secrets) (c : String)
    (ts : Option TransportSocket) : Prop :=
  ∃ us, upstreamFor ext c = some us ∧
    ((us.httpConnectSslConfig = none ∧ ts = none) ∨
     (∃ ssl cfg t, us.httpConnectSslConfig = some ssl ∧
        ext.resolveUpstreamSslConfig secrets ssl = some cfg ∧
        ext.messageToAny (.tlsContext cfg) = .ok t ∧
        ts = some { name := transportSocketTls, typedConfig := some t }))

/-- State of the first cluster named `c` after `c` has been processed. -/
def ClusterDone (ext : Externals) (secrets : Secrets) (inCl₀ cls : List Cluster)
    (c : String) : Prop :=
  (findCluster c inCl₀ = none → findCluster c cls = none) ∧
  (∀ cl₀, findCluster c inCl₀ = some cl₀ →
    ∃ ts, findCluster c cls = some { stripCluster cl₀ with transportSocket := ts } ∧
      TsSpec ext secrets c ts)

/-- Scan invariant relative to the initial cluster list: generated clusters
carry the pre-mutation transport socket of their original cluster, unprocessed
clusters are untouched, processed clusters are stripped or re-originated. -/
def Inv (ext : Externals) (secrets : Secrets) (inCl₀ : List Cluster)
    (st : ScanState) : Prop :=
  st.generatedClusters = st.processedClusters.map
    (fun c => generateSelfCluster (selfClusterName c) (selfPipeName c) (origTS inCl₀ c)) ∧
  (∀ c, c ∉ st.processedClusters → findCluster c st.clusters = findCluster c inCl₀) ∧
  (∀ c, c ∈ st.processedClusters → ClusterDone ext secrets inCl₀ st.clusters c)


/-! Concrete fixtures used to exercise the theorems on closed inputs. -/

/-- A tunneling upstream: hostname, one CONNECT header, no tunnel SSL. -/
def usPlain : Upstream :=
  { httpProxyHostname := some "proxy.example.com"
    httpConnectHeaders := [{ key := "X-Foo", value := "bar" }]
    httpConnectSslConfig := none }

/-- An upstream without a tunneling hostname. -/
def usNoTunnel : Upstream :=
  { httpProxyHostname := none, httpConnectHeaders := [], httpConnectSslConfig := none }

/-- A tunneling upstream carrying a tunnel SSL descriptor. -/
def usSsl : Upstream :=
  { httpProxyHostname := some "proxy.example.com"
    httpConnectHeaders := []
    httpConnectSslConfig := some { token := 1 } }

/-- Externals where every reference parses, `c1`/`c2`/`c3` resolve to the three
upstreams above, TLS resolution and serialization succeed. -/
def extBase : Externals :=
  { clusterToUpstreamRef := fun c => some { ns := "gloo-system", name := c }
    findUpstream := fun _ n =>
      if n = "c1" then some usPlain
      else if n = "c2" then some usNoTunnel
      else if n = "c3" then some usSsl
      else none
    resolveUpstreamSslConfig := fun _ _ => some { token := 7 }
    messageToAny := fun _ => .ok { blob := "blob" } }

/-- Externals whose reference resolver always fails. -/
def extParseFail : Externals :=
  { clusterToUpstreamRef := fun _ => none
    findUpstream := fun _ _ => none
    resolveUpstreamSslConfig := fun _ _ => none
    messageToAny := fun _ => .ok { blob := "blob" } }

/-- Externals whose upstream directory always fails. -/
def extFindFail : Externals :=
  { clusterToUpstreamRef := fun c => some { ns := "gloo-system", name := c }
    findUpstream := fun _ _ => none
    resolveUpstreamSslConfig := fun _ _ => none
    messageToAny := fun _ => .ok { blob := "blob" } }

/-- Externals like `extBase` but with a failing TLS resolver. -/
def extResolveFail : Externals :=
  { extBase with resolveUpstreamSslConfig := fun _ _ => none }

/-- Externals like `extBase` but with a failing config serializer. -/
def extSerFail : Externals :=
  { extBase with messageToAny := fun _ => .error "boom" }

/-- Externals where every name resolves to the same tunneling upstream. -/
def extAll : Externals :=
  { clusterToUpstreamRef := fun c => some { ns := "gloo-system", name := c }
    findUpstream := fun _ _ => some usPlain
    resolveUpstreamSslConfig := fun _ _ => some { token := 7 }
    messageToAny := fun _ => .ok { blob := "blob" } }

/-- A route whose action targets the single cluster `c`. -/
def rtTo (c : String) : Route :=
  { name := "r", routeAction := some { clusterSpecifier := some (.cluster c) } }

/-- A route with a weighted-clusters action. -/
def rtWeighted : Route :=
  { name := "rw", routeAction := some { clusterSpecifier := some (.weightedClusters [("a", 1)]) } }

/-- A route with a cluster-header action. -/
def rtHeader : Route :=
  { name := "rh", routeAction := some { clusterSpecifier := some (.clusterHeader "H") } }

/-- A pre-existing transport socket. -/
def tlsA : TransportSocket := { name := "tls-A", typedConfig := none }

/-- A named input cluster with the given transport socket. -/
def clNamed (n : String) (ts : Option TransportSocket) : Cluster :=
  { name := n
    clusterDiscoveryType := some .eds
    connectTimeout := none
    transportSocket := ts
    transportSocketMatches := []
    loadAssignment := none }

/-- A route configuration with one virtual host holding the given routes. -/
def rcOf (rts : List Route) : RouteConfiguration :=
  { name := "rc", virtualHosts := [{ name := "vh", routes := rts }] }

/-- A small scan state over clusters `c1` (with `tlsA`) and `c3` (with `tlsA`). -/
def st0 : ScanState := initState [clNamed "c1" (some tlsA), clNamed "c3" (some tlsA)]

/-- The listener `extBase` generates for cluster `c1`. -/
def lC6 : Listener :=
  { name := selfListenerName "c1"
    address := some (.pipe (selfPipeName "c1"))
    filterChains := [{ filters := [{ name := "tcp", typedConfig := some { blob := "blob" } }] }] }

/-- An original cluster name that is itself a generated self-cluster name. -/
def xName : String := "solo_io_generated_self_cluster_d"

/-- Routes referencing both `xName` and `d`, which collide after rewriting. -/
def rcs8 : List RouteConfiguration := [rcOf [rtTo xName, rtTo "d"]]

/-- First pass over `rcs8` with every name eligible. -/
def out1C8 : GROutput := GeneratedResources extAll 0 [] [] rcs8 []

/-- Second pass fed the first pass's own output (mutated routes, generated
clusters and listeners merged into the input sets). -/
def out2C8 : GROutput :=
  GeneratedResources extAll 0
    (out1C8.clusters ++ (out1C8.ret.retClusters.getD [])) []
    out1C8.routeConfigurations (out1C8.ret.retListeners.getD [])

/-! Basic lemmas about names, scan outcomes and the cluster list helpers. -/

theorem selfClusterName_injective {a b : String}
    (h : selfClusterName a = selfClusterName b) : a = b := by
  have h2 := congrArg String.data h
  simp only [selfClusterName, String.data_append] at h2
  exact String.ext (List.append_cancel_left h2)

theorem selfListenerName_injective {a b : String}
    (h : selfListenerName a = selfListenerName b) : a = b := by
  have h2 := congrArg String.data h
  simp only [selfListenerName, String.data_append] at h2
  exact String.ext (List.append_cancel_left h2)

theorem selfClusterName_ne_empty (c : String) : selfClusterName c ≠ "" := by
  intro h
  have h2 := congrArg String.data h
  simp only [selfClusterName, String.data_append] at h2
  exact absurd (List.append_eq_nil.mp h2).1 (by decide)

theorem Scan.map_cont_inv {s : Scan α} {f : α → β} {b : β} {st : ScanState}
    (h : s.map f = .cont b st) : ∃ a, s = .cont a st ∧ b = f a := by
  cases s <;> simp [Scan.map] at h
  exact ⟨_, by rw [h.2], h.1.symm⟩

theorem Scan.map_soft_inv {s : Scan α} {f : α → β} {b : β} {st : ScanState}
    (h : s.map f = .softAbort b st) : ∃ a, s = .softAbort a st ∧ b = f a := by
  cases s <;> simp [Scan.map] at h
  exact ⟨_, by rw [h.2], h.1.symm⟩

theorem Scan.map_hard_inv {s : Scan α} {f : α → β} {b : β} {st : ScanState} {e : String}
    (h : s.map f = .hardError b st e) : ∃ a, s = .hardError a st e ∧ b = f a := by
  cases s <;> simp [Scan.map] at h
  exact ⟨_, by rw [h.2.1, h.2.2], h.1.symm⟩

theorem findCluster_eq_none_iff {c : String} {l : List Cluster} :
    findCluster c l = none ↔ ∀ cl ∈ l, cl.name ≠ c := by
  induction l with
  | nil => simp [findCluster]
  | cons cl rest ih =>
    simp only [findCluster, List.mem_cons]
    by_cases hn : cl.name = c
    · simp only [if_pos hn]
      constructor
      · intro h; cases h
      · intro h; exact absurd hn (h cl (Or.inl rfl))
    · simp only [if_neg hn]
      rw [ih]
      constructor
      · intro h x hx
        rcases hx with rfl | hx
        · exact hn
        · exact h x hx
      · intro h x hx
        exact h x (Or.inr hx)

theorem stripFirst_of_none {c : String} {l : List Cluster}
    (h : findCluster c l = none) : stripFirst c l = l := by
  induction l with
  | nil => rfl
  | cons cl rest ih =>
    simp only [findCluster] at h
    by_cases hn : cl.name = c
    · simp [hn] at h
    · simp only [stripFirst, if_neg hn]
      simp only [if_neg hn] at h
      rw [ih h]

theorem map_name_stripFirst (c : String) (l : List Cluster) :
    (stripFirst c l).map Cluster.name = l.map Cluster.name := by
  induction l with
  | nil => rfl
  | cons cl rest ih =>
    by_cases hn : cl.name = c <;> simp [stripFirst, hn, ih, stripCluster]

theorem map_name_setFirstTls (c : String) (t : TypedAny) (l : List Cluster) :
    (setFirstTls c t l).map Cluster.name = l.map Cluster.name := by
  induction l with
  | nil => rfl
  | cons cl rest ih =>
    by_cases hn : cl.name = c <;> simp [setFirstTls, hn, ih, stripCluster]

theorem findCluster_stripFirst_self {c : String} {l : List Cluster} {cl₀ : Cluster}
    (h : findCluster c l = some cl₀) :
    findCluster c (stripFirst c l) = some (stripCluster cl₀) := by
  induction l with
  | nil => simp [findCluster] at h
  | cons cl rest ih =>
    by_cases hn : cl.name = c
    · simp only [findCluster, if_pos hn] at h
      cases h
      simp [stripFirst, findCluster, hn, stripCluster]
    · simp only [findCluster, if_neg hn] at h
      simp [stripFirst, findCluster, hn, ih h]

theorem findCluster_stripFirst_ne {d c : String} (hdc : d ≠ c) (l : List Cluster) :
    findCluster d (stripFirst c l) = findCluster d l := by
  induction l with
  | nil => rfl
  | cons cl rest ih =>
    by_cases hn : cl.name = c
    · simp only [stripFirst, if_pos hn, findCluster]
      have h1 : (stripCluster cl).name = c := hn
      rw [h1, hn, if_neg (fun h => hdc h.symm), if_neg (fun h => hdc h.symm)]
    · simp only [stripFirst, if_neg hn, findCluster]
      rw [ih]

theorem findCluster_setFirstTls_self {c : String} {l : List Cluster} {cl₀ : Cluster}
    (t : TypedAny) (h : findCluster c l = some cl₀) :
    findCluster c (setFirstTls c t l) =
      some { stripCluster cl₀ with
              transportSocket := some { name := transportSocketTls, typedConfig := some t } } := by
  induction l with
  | nil => simp [findCluster] at h
  | cons cl rest ih =>
    by_cases hn : cl.name = c
    · simp only [findCluster, if_pos hn] at h
      cases h
      simp [setFirstTls, findCluster, hn, stripCluster]
    · simp only [findCluster, if_neg hn] at h
      simp [setFirstTls, findCluster, hn, ih h]

theorem findCluster_setFirstTls_ne {d c : String} (hdc : d ≠ c) (t : TypedAny)
    (l : List Cluster) : findCluster d (setFirstTls c t l) = findCluster d l := by
  induction l with
  | nil => rfl
  | cons cl rest ih =>
    by_cases hn : cl.name = c
    · simp only [setFirstTls, if_pos hn, findCluster]
      have h1 : ({ stripCluster cl with
          transportSocket := some { name := transportSocketTls, typedConfig := some t } } :
          Cluster).name = c := hn
      rw [h1, hn, if_neg (fun h => hdc h.symm), if_neg (fun h => hdc h.symm)]
    · simp only [setFirstTls, if_neg hn, findCluster]
      rw [ih]

/-! Characterization of the inner cluster loop, one lemma per outcome shape. -/

theorem updateInClusters_of_absent {ext : Externals} {secrets : Secrets} {us : Upstream}
    {c : String} {l : List Cluster} (h : findCluster c l = none) :
    updateInClusters ext secrets us c l = .done l none := by
  induction l with
  | nil => rfl
  | cons cl rest ih =>
    simp only [findCluster] at h
    by_cases hn : cl.name = c
    · simp [if_pos hn] at h
    · simp only [if_neg hn] at h
      simp only [updateInClusters, if_neg hn, ih h]

theorem updateInClusters_of_noSsl {ext : Externals} {secrets : Secrets} {us : Upstream}
    {c : String} {l : List Cluster} {cl₀ : Cluster}
    (h : findCluster c l = some cl₀) (hssl : us.httpConnectSslConfig = none) :
    updateInClusters ext secrets us c l = .done (stripFirst c l) cl₀.transportSocket := by
  induction l with
  | nil => simp [findCluster] at h
  | cons cl rest ih =>
    simp only [findCluster] at h
    by_cases hn : cl.name = c
    · rw [if_pos hn] at h
      cases h
      simp [updateInClusters, if_pos hn, hssl, stripFirst, stripCluster]
    · rw [if_neg hn] at h
      simp only [updateInClusters, if_neg hn, ih h, stripFirst]

theorem updateInClusters_of_resolveFail {ext : Externals} {secrets : Secrets} {us : Upstream}
    {c : String} {l : List Cluster} {cl₀ : Cluster} {ssl : UpstreamSslConfig}
    (h : findCluster c l = some cl₀) (hssl : us.httpConnectSslConfig = some ssl)
    (hres : ext.resolveUpstreamSslConfig secrets ssl = none) :
    updateInClusters ext secrets us c l = .softAbort (stripFirst c l) := by
  induction l with
  | nil => simp [findCluster] at h
  | cons cl rest ih =>
    simp only [findCluster] at h
    by_cases hn : cl.name = c
    · rw [if_pos hn] at h
      cases h
      simp [updateInClusters, if_pos hn, hssl, hres, stripFirst, stripCluster]
    · rw [if_neg hn] at h
      simp only [updateInClusters, if_neg hn, ih h, stripFirst]

theorem updateInClusters_of_serializeFail {ext : Externals} {secrets : Secrets} {us : Upstream}
    {c : String} {l : List Cluster} {cl₀ : Cluster} {ssl : UpstreamSslConfig}
    {cfg : UpstreamTlsContext} {e : String}
    (h : findCluster c l = some cl₀) (hssl : us.httpConnectSslConfig = some ssl)
    (hres : ext.resolveUpstreamSslConfig secrets ssl = some cfg)
    (hser : ext.messageToAny (.tlsContext cfg) = .error e) :
    updateInClusters ext secrets us c l = .hardError (stripFirst c l) e := by
  induction l with
  | nil => simp [findCluster] at h
  | cons cl rest ih =>
    simp only [findCluster] at h
    by_cases hn : cl.name = c
    · rw [if_pos hn] at h
      cases h
      simp [updateInClusters, if_pos hn, hssl, hres, hser, stripFirst, stripCluster]
    · rw [if_neg hn] at h
      simp only [updateInClusters, if_neg hn, ih h, stripFirst]

theorem updateInClusters_of_tls {ext : Externals} {secrets : Secrets} {us : Upstream}
    {c : String} {l : List Cluster} {cl₀ : Cluster} {ssl : UpstreamSslConfig}
    {cfg : UpstreamTlsContext} {t : TypedAny}
    (h : findCluster c l = some cl₀) (hssl : us.httpConnectSslConfig = some ssl)
    (hres : ext.resolveUpstreamSslConfig secrets ssl = some cfg)
    (hser : ext.messageToAny (.tlsContext cfg) = .ok t) :
    updateInClusters ext secrets us c l = .done (setFirstTls c t l) cl₀.transportSocket := by
  induction l with
  | nil => simp [findCluster] at h
  | cons cl rest ih =>
    simp only [findCluster] at h
    by_cases hn : cl.name = c
    · rw [if_pos hn] at h
      cases h
      simp [updateInClusters, if_pos hn, hssl, hres, hser, setFirstTls, stripCluster]
    · rw [if_neg hn] at h
      simp only [updateInClusters, if_neg hn, ih h, setFirstTls]

/-- Inversion: every outcome of the inner cluster loop is one of the five
shapes above. -/
theorem updateInClusters_inversion (ext : Externals) (secrets : Secrets) (us : Upstream)
    (c : String) (l : List Cluster) :
    (findCluster c l = none ∧ updateInClusters ext secrets us c l = .done l none) ∨
    (∃ cl₀, findCluster c l = some cl₀ ∧
      ((us.httpConnectSslConfig = none ∧
          updateInClusters ext secrets us c l = .done (stripFirst c l) cl₀.transportSocket) ∨
       (∃ ssl, us.httpConnectSslConfig = some ssl ∧
         ((ext.resolveUpstreamSslConfig secrets ssl = none ∧
             updateInClusters ext secrets us c l = .softAbort (stripFirst c l)) ∨
          (∃ cfg, ext.resolveUpstreamSslConfig secrets ssl = some cfg ∧
            ((∃ e, ext.messageToAny (.tlsContext cfg) = .error e ∧
                updateInClusters ext secrets us c l = .hardError (stripFirst c l) e) ∨
             (∃ t, ext.messageToAny (.tlsContext cfg) = .ok t ∧
                updateInClusters ext secrets us c l =
                  .done (setFirstTls c t l) cl₀.transportSocket))))))) := by
  cases h : findCluster c l with
  | none => exact Or.inl ⟨rfl, updateInClusters_of_absent h⟩
  | some cl₀ =>
    refine Or.inr ⟨cl₀, rfl, ?_⟩
    cases hssl : us.httpConnectSslConfig with
    | none => exact Or.inl ⟨rfl, updateInClusters_of_noSsl h hssl⟩
    | some ssl =>
      refine Or.inr ⟨ssl, rfl, ?_⟩
      cases hres : ext.resolveUpstreamSslConfig secrets ssl with
      | none => exact Or.inl ⟨rfl, updateInClusters_of_resolveFail h hssl hres⟩
      | some cfg =>
        refine Or.inr ⟨cfg, rfl, ?_⟩
        cases hser : ext.messageToAny (.tlsContext cfg) with
        | error e => exact Or.inl ⟨e, rfl, updateInClusters_of_serializeFail h hssl hres hser⟩
        | ok t => exact Or.inr ⟨t, rfl, updateInClusters_of_tls h hssl hres hser⟩

/-! Lemmas about eligibility and the route-level processing step. -/

theorem upstreamFor_eq_some {ext : Externals} {c : String} {us : Upstream} :
    upstreamFor ext c = some us ↔
      ∃ ref, ext.clusterToUpstreamRef c = some ref ∧
        ext.findUpstream ref.ns ref.name = some us := by
  unfold upstreamFor
  cases h : ext.clusterToUpstreamRef c <;> simp [h]

theorem tunnelingEligible_iff {ext : Externals} {c : String} :
    tunnelingEligible ext c = true ↔
      c ≠ "" ∧ ∃ us, upstreamFor ext c = some us ∧ us.httpProxyHostname.getD "" ≠ "" := by
  unfold tunnelingEligible
  cases h : upstreamFor ext c <;> simp [h, bne_iff_ne]

theorem routeCluster_ne_empty {rt : Route} {c : String} (h : routeCluster rt = some c) :
    c ≠ "" := by
  unfold routeCluster at h
  split at h
  · cases h
  · split at h
    · split at h
      · cases h
      · rename_i hne
        cases h
        exact hne
    · cases h

theorem processRoute_skip_nonSingle {ext : Externals} {secrets : Secrets} {st : ScanState}
    {rt : Route} (h : routeCluster rt = none) :
    processRoute ext secrets st rt = .cont rt st := by
  simp [processRoute, h]

theorem processRoute_soft_parseFail {ext : Externals} {secrets : Secrets} {st : ScanState}
    {rt : Route} {c : String} (h : routeCluster rt = some c)
    (hp : ext.clusterToUpstreamRef c = none) :
    processRoute ext secrets st rt = .softAbort rt st := by
  simp [processRoute, h, hp]

theorem processRoute_soft_findFail {ext : Externals} {secrets : Secrets} {st : ScanState}
    {rt : Route} {c : String} {ref : UpstreamRef} (h : routeCluster rt = some c)
    (hp : ext.clusterToUpstreamRef c = some ref)
    (hf : ext.findUpstream ref.ns ref.name = none) :
    processRoute ext secrets st rt = .softAbort rt st := by
  simp [processRoute, h, hp, hf]

theorem processRoute_skip_noHostname {ext : Externals} {secrets : Secrets} {st : ScanState}
    {rt : Route} {c : String} {us : Upstream} (h : routeCluster rt = some c)
    (hu : upstreamFor ext c = some us) (hh : us.httpProxyHostname.getD "" = "") :
    processRoute ext secrets st rt = .cont rt st := by
  obtain ⟨ref, hp, hf⟩ := upstreamFor_eq_some.mp hu
  simp [processRoute, h, hp, hf, hh]

theorem processRoute_eligible {ext : Externals} {secrets : Secrets} {st : ScanState}
    {rt : Route} {c : String} {us : Upstream} (h : routeCluster rt = some c)
    (hu : upstreamFor ext c = some us) (hh : us.httpProxyHostname.getD "" ≠ "") :
    processRoute ext secrets st rt =
      processEligible ext secrets st rt c us (us.httpProxyHostname.getD "") := by
  obtain ⟨ref, hp, hf⟩ := upstreamFor_eq_some.mp hu
  simp [processRoute, h, hp, hf, hh]

theorem processEligible_val (ext : Externals) (secrets : Secrets) (st : ScanState)
    (rt : Route) (c : String) (us : Upstream) (hn : String) :
    (processEligible ext secrets st rt c us hn).val = rewriteRoute rt (selfClusterName c) := by
  unfold processEligible
  split
  · rfl
  · split
    · rfl
    · rfl
    · split <;> rfl

theorem processEligible_cont_inv {ext : Externals} {secrets : Secrets} {st : ScanState}
    {rt : Route} {c : String} {us : Upstream} {hn : String} {rt' : Route} {st' : ScanState}
    (h : processEligible ext secrets st rt c us hn = .cont rt' st') :
    rt' = rewriteRoute rt (selfClusterName c) ∧
    ((c ∈ st.processedClusters ∧ st' = st) ∨
     (c ∉ st.processedClusters ∧ ∃ cs ts l,
        updateInClusters ext secrets us c st.clusters = .done cs ts ∧
        generateForwardingTcpListener ext c (selfPipeName c) hn
          (tunnelingHeadersOf us.httpConnectHeaders) = .ok l ∧
        st' = { st with
                 clusters := cs
                 generatedClusters := st.generatedClusters ++
                   [generateSelfCluster (selfClusterName c) (selfPipeName c) ts]
                 generatedListeners := st.generatedListeners ++ [l]
                 processedClusters := st.processedClusters ++ [c] })) := by
  unfold processEligible at h
  split at h
  · cases h
    exact ⟨rfl, Or.inl ⟨by assumption, rfl⟩⟩
  · rename_i hmem
    split at h
    · cases h
    · cases h
    · rename_i cs ts hdone
      split at h
      · cases h
      · rename_i l hok
        cases h
        exact ⟨rfl, Or.inr ⟨hmem, cs, ts, l, hdone, hok, rfl⟩⟩

theorem processEligible_soft_inv {ext : Externals} {secrets : Secrets} {st : ScanState}
    {rt : Route} {c : String} {us : Upstream} {hn : String} {rt' : Route} {st' : ScanState}
    (h : processEligible ext secrets st rt c us hn = .softAbort rt' st') :
    rt' = rewriteRoute rt (selfClusterName c) ∧ c ∉ st.processedClusters ∧
    ∃ cs, updateInClusters ext secrets us c st.clusters = .softAbort cs ∧
      st' = { st with clusters := cs } := by
  unfold processEligible at h
  split at h
  · cases h
  · rename_i hmem
    split at h
    · rename_i cs hsoft
      cases h
      exact ⟨rfl, hmem, cs, hsoft, rfl⟩
    · cases h
    · split at h
      · cases h
      · cases h

theorem processEligible_hard_inv {ext : Externals} {secrets : Secrets} {st : ScanState}
    {rt : Route} {c : String} {us : Upstream} {hn : String} {rt' : Route} {st' : ScanState}
    {e : String} (h : processEligible ext secrets st rt c us hn = .hardError rt' st' e) :
    rt' = rewriteRoute rt (selfClusterName c) ∧ c ∉ st.processedClusters ∧
    ((∃ cs, updateInClusters ext secrets us c st.clusters = .hardError cs e ∧
        st' = { st with clusters := cs }) ∨
     (∃ cs ts, updateInClusters ext secrets us c st.clusters = .done cs ts ∧
        generateForwardingTcpListener ext c (selfPipeName c) hn
          (tunnelingHeadersOf us.httpConnectHeaders) = .error e ∧
        st' = { st with
                 clusters := cs
                 generatedClusters := st.generatedClusters ++
                   [generateSelfCluster (selfClusterName c) (selfPipeName c) ts] })) := by
  unfold processEligible at h
  split at h
  · cases h
  · rename_i hmem
    split at h
    · cases h
    · rename_i cs e2 hhard
      cases h
      exact ⟨rfl, hmem, Or.inl ⟨cs, hhard, rfl⟩⟩
    · rename_i cs ts hdone
      split at h
      · rename_i herr
        cases h
        exact ⟨rfl, hmem, Or.inr ⟨cs, ts, hdone, herr, rfl⟩⟩
      · cases h

theorem generateForwardingTcpListener_ok_inv {ext : Externals} {c sp hn : String}
    {hdrs : List HeaderValueOption} {l : Listener}
    (h : generateForwardingTcpListener ext c sp hn hdrs = .ok l) :
    ∃ t, ext.messageToAny (.tcpProxy (tcpProxyCfg c hn hdrs)) = .ok t ∧
      l = { name := selfListenerName c
            address := some (.pipe sp)
            filterChains := [{ filters := [{ name := "tcp", typedConfig := some t }] }] } := by
  unfold generateForwardingTcpListener at h
  split at h
  · cases h
  · rename_i t hser
    cases h
    exact ⟨t, hser, rfl⟩

theorem generateForwardingTcpListener_error_inv {ext : Externals} {c sp hn : String}
    {hdrs : List HeaderValueOption} {e : String}
    (h : generateForwardingTcpListener ext c sp hn hdrs = .error e) :
    ext.messageToAny (.tcpProxy (tcpProxyCfg c hn hdrs)) = .error e := by
  unfold generateForwardingTcpListener at h
  split at h
  · rename_i e2 hser
    cases h
    exact hser
  · cases h

theorem processRoute_cont_inv {ext : Externals} {secrets : Secrets} {st : ScanState}
    {rt rt' : Route} {st' : ScanState}
    (h : processRoute ext secrets st rt = .cont rt' st') :
    (rt' = rt ∧ st' = st ∧
      (routeCluster rt = none ∨
       ∃ c us, routeCluster rt = some c ∧ upstreamFor ext c = some us ∧
         us.httpProxyHostname.getD "" = "")) ∨
    (∃ c us, routeCluster rt = some c ∧ upstreamFor ext c = some us ∧
      us.httpProxyHostname.getD "" ≠ "" ∧
      processEligible ext secrets st rt c us (us.httpProxyHostname.getD "") = .cont rt' st') := by
  unfold processRoute at h
  split at h
  · rename_i hc
    cases h
    exact Or.inl ⟨rfl, rfl, Or.inl hc⟩
  · rename_i c hc
    split at h
    · cases h
    · rename_i ref hp
      split at h
      · cases h
      · rename_i us hf
        have hu : upstreamFor ext c = some us := upstreamFor_eq_some.mpr ⟨ref, hp, hf⟩
        split at h
        · rename_i hh
          cases h
          exact Or.inl ⟨rfl, rfl, Or.inr ⟨c, us, hc, hu, hh⟩⟩
        · rename_i hh
          exact Or.inr ⟨c, us, hc, hu, hh, h⟩

theorem processRoute_soft_inv {ext : Externals} {secrets : Secrets} {st : ScanState}
    {rt rt' : Route} {st' : ScanState}
    (h : processRoute ext secrets st rt = .softAbort rt' st') :
    (rt' = rt ∧ st' = st ∧ ∃ c, routeCluster rt = some c ∧ upstreamFor ext c = none) ∨
    (∃ c us, routeCluster rt = some c ∧ upstreamFor ext c = some us ∧
      us.httpProxyHostname.getD "" ≠ "" ∧
      processEligible ext secrets st rt c us (us.httpProxyHostname.getD "") =
        .softAbort rt' st') := by
  unfold processRoute at h
  split at h
  · cases h
  · rename_i c hc
    split at h
    · rename_i hp
      cases h
      exact Or.inl ⟨rfl, rfl, c, hc, by unfold upstreamFor; rw [hp]⟩
    · rename_i ref hp
      split at h
      · rename_i hf
        cases h
        exact Or.inl ⟨rfl, rfl, c, hc, by unfold upstreamFor; rw [hp]; exact hf⟩
      · rename_i us hf
        have hu : upstreamFor ext c = some us := upstreamFor_eq_some.mpr ⟨ref, hp, hf⟩
        split at h
        · cases h
        · rename_i hh
          exact Or.inr ⟨c, us, hc, hu, hh, h⟩

theorem processRoute_hard_inv {ext : Externals} {secrets : Secrets} {st : ScanState}
    {rt rt' : Route} {st' : ScanState} {e : String}
    (h : processRoute ext secrets st rt = .hardError rt' st' e) :
    ∃ c us, routeCluster rt = some c ∧ upstreamFor ext c = some us ∧
      us.httpProxyHostname.getD "" ≠ "" ∧
      processEligible ext secrets st rt c us (us.httpProxyHostname.getD "") =
        .hardError rt' st' e := by
  unfold processRoute at h
  split at h
  · cases h
  · rename_i c hc
    split at h
    · cases h
    · rename_i ref hp
      split at h
      · cases h
      · rename_i us hf
        have hu : upstreamFor ext c = some us := upstreamFor_eq_some.mpr ⟨ref, hp, hf⟩
        split at h
        · cases h
        · rename_i hh
          exact ⟨c, us, hc, hu, hh, h⟩

theorem processRoute_val_of_eligible {ext : Externals} {secrets : Secrets} {st : ScanState}
    {rt : Route} {c : String} (h : routeCluster rt = some c)
    (he : tunnelingEligible ext c = true) :
    (processRoute ext secrets st rt).val = rewriteRoute rt (selfClusterName c) := by
  obtain ⟨-, us, hu, hh⟩ := tunnelingEligible_iff.mp he
  rw [processRoute_eligible h hu hh, processEligible_val]

theorem contPres_scanList {P : ScanState → Prop} {f : ScanState → α → Scan α}
    (hf : ContPres P f) : ContPres P (scanList f) := by
  intro st l l' st' h hp
  induction l generalizing st l' with
  | nil =>
    simp only [scanList] at h
    cases h
    exact hp
  | cons a rest ih =>
    simp only [scanList] at h
    split at h
    · cases h
    · cases h
    · rename_i a1 st1 hfa
      split at h
      · rename_i as st2 hrest
        cases h
        exact ih st1 as hrest (hf st a a1 st1 hfa hp)
      · cases h
      · cases h

theorem softReach_scanList {P Q : ScanState → Prop} {f : ScanState → α → Scan α}
    (hc : ContPres P f) (hs : SoftReach P Q f) : SoftReach P Q (scanList f) := by
  intro st l l' st' h hp
  induction l generalizing st l' with
  | nil => simp [scanList] at h
  | cons a rest ih =>
    simp only [scanList] at h
    split at h
    · rename_i a1 st1 hfa
      cases h
      exact hs st a a1 st' hfa hp
    · cases h
    · rename_i a1 st1 hfa
      split at h
      · cases h
      · rename_i as st2 hrest
        cases h
        exact ih st1 as hrest (hc st a a1 st1 hfa hp)
      · cases h

theorem procSpec_scanList {E : String → Prop} {g : α → List String}
    {f : ScanState → α → Scan α} (hf : ProcSpec E g f) :
    ProcSpec E (fun l => l.flatMap g) (scanList f) := by
  intro st l l' st' h c
  induction l generalizing st l' with
  | nil =>
    simp only [scanList] at h
    cases h
    simp
  | cons a rest ih =>
    simp only [scanList] at h
    split at h
    · cases h
    · cases h
    · rename_i a1 st1 hfa
      split at h
      · rename_i as st2 hrest
        cases h
        rw [ih st1 as hrest, hf st a a1 st1 hfa c]
        simp only [List.flatMap_cons, List.mem_append]
        tauto
      · cases h
      · cases h

theorem procSub_scanList {E : String → Prop} {g : α → List String}
    {f : ScanState → α → Scan α} (hf : ProcSub E g f) :
    ProcSub E (fun l => l.flatMap g) (scanList f) := by
  intro st l l' st' h c hc
  induction l generalizing st l' with
  | nil =>
    rcases h with h | h <;> simp only [scanList] at h
    · cases h
      exact Or.inl hc
    · cases h
  | cons a rest ih =>
    have grow : ∀ (st1 : ScanState), c ∈ st1.processedClusters →
        (c ∈ st.processedClusters ∨ (c ∈ g a ∧ E c)) →
        c ∈ st.processedClusters ∨ (c ∈ (a :: rest).flatMap g ∧ E c) := by
      intro _ _ hin
      rcases hin with hin | ⟨hg, he⟩
      · exact Or.inl hin
      · exact Or.inr ⟨by simp [List.flatMap_cons, hg], he⟩
    rcases h with h | h <;> simp only [scanList] at h <;> split at h
    · cases h
    · cases h
    · rename_i a1 st1 hfa
      split at h
      · rename_i as st2 hrest
        cases h
        rcases ih st1 as (Or.inl hrest) with hin | ⟨hg, he⟩
        · exact grow st1 hin (hf st a a1 st1 (Or.inl hfa) c hin)
        · exact Or.inr ⟨by simp only [List.flatMap_cons, List.mem_append]; exact Or.inr hg, he⟩
      · cases h
      · cases h
    · rename_i a1 st1 hfa
      cases h
      exact grow st' hc (hf st a a1 st' (Or.inr hfa) c hc)
    · cases h
    · rename_i a1 st1 hfa
      split at h
      · cases h
      · rename_i as st2 hrest
        cases h
        rcases ih st1 as (Or.inr hrest) with hin | ⟨hg, he⟩
        · exact grow st1 hin (hf st a a1 st1 (Or.inl hfa) c hin)
        · exact Or.inr ⟨by simp only [List.flatMap_cons, List.mem_append]; exact Or.inr hg, he⟩
      · cases h

theorem outRel_scanList {R : α → α → Prop} {f : ScanState → α → Scan α}
    (hf : OutRel R f) : OutRel (List.Forall₂ R) (scanList f) := by
  intro st l l' st' h
  induction l generalizing st l' with
  | nil =>
    simp only [scanList] at h
    cases h
    exact List.Forall₂.nil
  | cons a rest ih =>
    simp only [scanList] at h
    split at h
    · cases h
    · cases h
    · rename_i a1 st1 hfa
      split at h
      · rename_i as st2 hrest
        cases h
        exact List.Forall₂.cons (hf st a a1 st1 hfa) (ih st1 as hrest)
      · cases h
      · cases h

theorem contPres_lift {P : ScanState → Prop} {F : ScanState → List β → Scan (List β)}
    (sel : α → List β) (upd : α → List β → α) (hF : ContPres P F) :
    ContPres P (fun st x => (F st (sel x)).map (upd x)) := by
  intro st a a' st' h hp
  obtain ⟨bs, hFe, -⟩ := Scan.map_cont_inv h
  exact hF st (sel a) bs st' hFe hp

theorem softReach_lift {P Q : ScanState → Prop} {F : ScanState → List β → Scan (List β)}
    (sel : α → List β) (upd : α → List β → α) (hF : SoftReach P Q F) :
    SoftReach P Q (fun st x => (F st (sel x)).map (upd x)) := by
  intro st a a' st' h hp
  obtain ⟨bs, hFe, -⟩ := Scan.map_soft_inv h
  exact hF st (sel a) bs st' hFe hp

theorem procSpec_lift {E : String → Prop} {gL : List β → List String}
    {F : ScanState → List β → Scan (List β)} (sel : α → List β) (upd : α → List β → α)
    (hF : ProcSpec E gL F) :
    ProcSpec E (fun x => gL (sel x)) (fun st x => (F st (sel x)).map (upd x)) := by
  intro st a a' st' h c
  obtain ⟨bs, hFe, -⟩ := Scan.map_cont_inv h
  exact hF st (sel a) bs st' hFe c

theorem procSub_lift {E : String → Prop} {gL : List β → List String}
    {F : ScanState → List β → Scan (List β)} (sel : α → List β) (upd : α → List β → α)
    (hF : ProcSub E gL F) :
    ProcSub E (fun x => gL (sel x)) (fun st x => (F st (sel x)).map (upd x)) := by
  intro st a a' st' h c hc
  rcases h with h | h
  · obtain ⟨bs, hFe, -⟩ := Scan.map_cont_inv h
    exact hF st (sel a) bs st' (Or.inl hFe) c hc
  · obtain ⟨bs, hFe, -⟩ := Scan.map_soft_inv h
    exact hF st (sel a) bs st' (Or.inr hFe) c hc

theorem outRel_lift {RL : List β → List β → Prop}
    {F : ScanState → List β → Scan (List β)} (sel : α → List β) (upd : α → List β → α)
    (hsel : ∀ x bs, sel (upd x bs) = bs) (hF : OutRel RL F) :
    OutRel (fun x x' => RL (sel x) (sel x')) (fun st x => (F st (sel x)).map (upd x)) := by
  intro st a a' st' h
  obtain ⟨bs, hFe, hupd⟩ := Scan.map_cont_inv h
  rw [hupd, hsel]
  exact hF st (sel a) bs st' hFe

/-! Name-level invariant of the scan state and its preservation. -/

theorem generateSelfCluster_name (a b : String) (t : Option TransportSocket) :
    (generateSelfCluster a b t).name = a := rfl

theorem routeCluster_rewrite {rt : Route} {s : String} (hs : s ≠ "") :
    routeCluster (rewriteRoute rt s) = some s := by
  simp [routeCluster, rewriteRoute, hs]

theorem processRoute_invNames_cont (ext : Externals) (secrets : Secrets) :
    ContPres InvNames (processRoute ext secrets) := by
  intro st rt rt' st' h hp
  rcases processRoute_cont_inv h with ⟨-, rfl, -⟩ | ⟨c, us, hc, hu, hh, he⟩
  · exact hp
  · rcases processEligible_cont_inv he with ⟨-, ⟨-, rfl⟩ | ⟨hmem, cs, ts, l, hdone, hok, rfl⟩⟩
    · exact hp
    · obtain ⟨hg1, hg2, hnd⟩ := hp
      obtain ⟨t, hser, rfl⟩ := generateForwardingTcpListener_ok_inv hok
      refine ⟨?_, ?_, ?_⟩
      · simp only [List.map_append, hg1, generateSelfCluster_name, List.map_cons, List.map_nil]
      · simp only [List.map_append, hg2, List.map_cons, List.map_nil]
      · simp only [List.nodup_append, List.nodup_singleton, List.disjoint_singleton]
        exact ⟨hnd, trivial, hmem⟩

theorem processRoute_invNames_soft (ext : Externals) (secrets : Secrets) :
    SoftReach InvNames InvNames (processRoute ext secrets) := by
  intro st rt rt' st' h hp
  rcases processRoute_soft_inv h with ⟨-, rfl, -⟩ | ⟨c, us, hc, hu, hh, he⟩
  · exact hp
  · obtain ⟨-, -, cs, -, rfl⟩ := processEligible_soft_inv he
    exact hp

/-! Characterization of the processed set after continuing steps. -/

theorem processRoute_procSpec (ext : Externals) (secrets : Secrets) :
    ProcSpec (fun c => tunnelingEligible ext c = true) routeRefsOf
      (processRoute ext secrets) := by
  intro st rt rt' st' h c
  rcases processRoute_cont_inv h with ⟨-, rfl, hskip⟩ | ⟨c₀, us, hc, hu, hh, he⟩
  · rcases hskip with hnone | ⟨c₀, us, hc, hu, hsk⟩
    · simp [routeRefsOf, hnone]
    · have hne : ¬ tunnelingEligible ext c₀ = true := by
        intro hel
        obtain ⟨-, us', hu', hh'⟩ := tunnelingEligible_iff.mp hel
        rw [hu] at hu'
        cases hu'
        exact hh' hsk
      simp only [routeRefsOf, hc, Option.toList_some, List.mem_singleton]
      constructor
      · exact fun hmem => Or.inl hmem
      · rintro (hmem | ⟨rfl, hel⟩)
        · exact hmem
        · exact absurd hel hne
  · have hel : tunnelingEligible ext c₀ = true :=
      tunnelingEligible_iff.mpr ⟨routeCluster_ne_empty hc, us, hu, hh⟩
    rcases processEligible_cont_inv he with ⟨-, ⟨hmem, rfl⟩ | ⟨hmem, cs, ts, l, -, -, rfl⟩⟩
    · simp only [routeRefsOf, hc, Option.toList_some, List.mem_singleton]
      constructor
      · exact fun h2 => Or.inl h2
      · rintro (h2 | ⟨rfl, -⟩)
        · exact h2
        · exact hmem
    · simp only [routeRefsOf, hc, Option.toList_some, List.mem_singleton, List.mem_append]
      constructor
      · rintro (h2 | h2)
        · exact Or.inl h2
        · exact Or.inr ⟨h2, h2 ▸ hel⟩
      · rintro (h2 | ⟨rfl, -⟩)
        · exact Or.inl h2
        · exact Or.inr rfl

theorem processRoute_procSub (ext : Externals) (secrets : Secrets) :
    ProcSub (fun c => tunnelingEligible ext c = true) routeRefsOf
      (processRoute ext secrets) := by
  intro st rt rt' st' h c hc
  rcases h with h | h
  · exact (processRoute_procSpec ext secrets st rt rt' st' h c).mp hc
  · rcases processRoute_soft_inv h with ⟨-, rfl, -⟩ | ⟨c₀, us, hc₀, hu, hh, he⟩
    · exact Or.inl hc
    · obtain ⟨-, -, cs, -, rfl⟩ := processEligible_soft_inv he
      exact Or.inl hc

/-! Characterization of the cluster names referenced by the output routes. -/

theorem refsOK_append {E : String → Prop} {xs ys xs' ys' : List String}
    (h1 : RefsOK E xs ys) (h2 : RefsOK E xs' ys') :
    RefsOK E (xs ++ xs') (ys ++ ys') := by
  intro x hx
  rcases List.mem_append.mp hx with hx | hx
  · rcases h1 x hx with ⟨hm, hne⟩ | ⟨d, hd, he, hxeq⟩
    · exact Or.inl ⟨List.mem_append.mpr (Or.inl hm), hne⟩
    · exact Or.inr ⟨d, List.mem_append.mpr (Or.inl hd), he, hxeq⟩
  · rcases h2 x hx with ⟨hm, hne⟩ | ⟨d, hd, he, hxeq⟩
    · exact Or.inl ⟨List.mem_append.mpr (Or.inr hm), hne⟩
    · exact Or.inr ⟨d, List.mem_append.mpr (Or.inr hd), he, hxeq⟩

theorem forall₂_refsOK_flatMap {E : String → Prop} {g : α → List String}
    {l l' : List α} (h : List.Forall₂ (fun a a' => RefsOK E (g a) (g a')) l l') :
    RefsOK E (l.flatMap g) (l'.flatMap g) := by
  induction h with
  | nil => intro x hx; simp at hx
  | cons hR _ ih =>
    rw [List.flatMap_cons, List.flatMap_cons]
    exact refsOK_append hR ih

theorem processRoute_outRefs (ext : Externals) (secrets : Secrets) :
    OutRel (fun rt rt' =>
        RefsOK (fun c => tunnelingEligible ext c = true) (routeRefsOf rt) (routeRefsOf rt'))
      (processRoute ext secrets) := by
  intro st rt rt' st' h
  rcases processRoute_cont_inv h with ⟨rfl, -, hskip⟩ | ⟨c, us, hc, hu, hh, he⟩
  · intro x hx
    rcases hskip with hnone | ⟨c₀, us, hc, hu, hsk⟩
    · rw [routeRefsOf, hnone] at hx
      simp at hx
    · rw [routeRefsOf, hc, Option.toList_some, List.mem_singleton] at hx
      subst hx
      refine Or.inl ⟨by simp [routeRefsOf, hc], ?_⟩
      intro hel
      obtain ⟨-, us', hu', hh'⟩ := tunnelingEligible_iff.mp hel
      rw [hu] at hu'
      cases hu'
      exact hh' hsk
  · have hrt' := (processEligible_cont_inv he).1
    intro x hx
    rw [hrt', routeRefsOf, routeCluster_rewrite (selfClusterName_ne_empty c),
      Option.toList_some, List.mem_singleton] at hx
    subst hx
    exact Or.inr ⟨c, by simp [routeRefsOf, hc],
      tunnelingEligible_iff.mpr ⟨routeCluster_ne_empty hc, us, hu, hh⟩, rfl⟩

/-! Every eligible route that a continuing step touches is rewritten. -/

theorem processRoute_outRW (ext : Externals) (secrets : Secrets) :
    OutRel (fun rt rt' => ∀ c, routeCluster rt = some c → tunnelingEligible ext c = true →
        rt' = rewriteRoute rt (selfClusterName c))
      (processRoute ext secrets) := by
  intro st rt rt' st' h c hc hel
  rcases processRoute_cont_inv h with ⟨rfl, -, hskip⟩ | ⟨c₀, us, hc₀, hu, hh, he⟩
  · exfalso
    obtain ⟨-, us', hu', hh'⟩ := tunnelingEligible_iff.mp hel
    rcases hskip with hnone | ⟨c₁, us₁, hc₁, hu₁, hsk⟩
    · rw [hc] at hnone
      cases hnone
    · rw [hc] at hc₁
      cases hc₁
      rw [hu'] at hu₁
      cases hu₁
      exact hh' hsk
  · rw [hc] at hc₀
    cases hc₀
    exact (processEligible_cont_inv he).1

/-! Lifting the per-route facts through the three nested scan levels. -/

theorem scan_invNames_cont (ext : Externals) (secrets : Secrets) :
    ContPres InvNames (scanRouteConfigurations ext secrets) := by
  have h1 : ContPres InvNames (processRoutes ext secrets) :=
    contPres_scanList (processRoute_invNames_cont ext secrets)
  have h2 : ContPres InvNames (processVirtualHost ext secrets) :=
    contPres_lift (fun (vh : VirtualHost) => vh.routes)
      (fun vh rts => { vh with routes := rts }) h1
  have h3 : ContPres InvNames (processVirtualHosts ext secrets) := contPres_scanList h2
  have h4 : ContPres InvNames (processRouteConfiguration ext secrets) :=
    contPres_lift (fun (rc : RouteConfiguration) => rc.virtualHosts)
      (fun rc vhs => { rc with virtualHosts := vhs }) h3
  exact contPres_scanList h4

theorem scan_invNames_soft (ext : Externals) (secrets : Secrets) :
    SoftReach InvNames InvNames (scanRouteConfigurations ext secrets) := by
  have c1 : ContPres InvNames (processRoutes ext secrets) :=
    contPres_scanList (processRoute_invNames_cont ext secrets)
  have s1 : SoftReach InvNames InvNames (processRoutes ext secrets) :=
    softReach_scanList (processRoute_invNames_cont ext secrets)
      (processRoute_invNames_soft ext secrets)
  have c2 : ContPres InvNames (processVirtualHost ext secrets) :=
    contPres_lift (fun (vh : VirtualHost) => vh.routes)
      (fun vh rts => { vh with routes := rts }) c1
  have s2 : SoftReach InvNames InvNames (processVirtualHost ext secrets) :=
    softReach_lift (fun (vh : VirtualHost) => vh.routes)
      (fun vh rts => { vh with routes := rts }) s1
  have c3 : ContPres InvNames (processVirtualHosts ext secrets) := contPres_scanList c2
  have s3 : SoftReach InvNames InvNames (processVirtualHosts ext secrets) :=
    softReach_scanList c2 s2
  have c4 : ContPres InvNames (processRouteConfiguration ext secrets) :=
    contPres_lift (fun (rc : RouteConfiguration) => rc.virtualHosts)
      (fun rc vhs => { rc with virtualHosts := vhs }) c3
  have s4 : SoftReach InvNames InvNames (processRouteConfiguration ext secrets) :=
    softReach_lift (fun (rc : RouteConfiguration) => rc.virtualHosts)
      (fun rc vhs => { rc with virtualHosts := vhs }) s3
  exact softReach_scanList c4 s4

theorem scan_procSpec (ext : Externals) (secrets : Secrets) :
    ProcSpec (fun c => tunnelingEligible ext c = true) routeRefs
      (scanRouteConfigurations ext secrets) := by
  have h1 : ProcSpec (fun c => tunnelingEligible ext c = true)
      (fun rts => rts.flatMap routeRefsOf) (processRoutes ext secrets) :=
    procSpec_scanList (processRoute_procSpec ext secrets)
  have h2 : ProcSpec (fun c => tunnelingEligible ext c = true) vhRefs
      (processVirtualHost ext secrets) :=
    procSpec_lift (fun (vh : VirtualHost) => vh.routes)
      (fun vh rts => { vh with routes := rts }) h1
  have h3 : ProcSpec (fun c => tunnelingEligible ext c = true)
      (fun vhs => vhs.flatMap vhRefs) (processVirtualHosts ext secrets) :=
    procSpec_scanList h2
  have h4 : ProcSpec (fun c => tunnelingEligible ext c = true) rcRefs
      (processRouteConfiguration ext secrets) :=
    procSpec_lift (fun (rc : RouteConfiguration) => rc.virtualHosts)
      (fun rc vhs => { rc with virtualHosts := vhs }) h3
  exact procSpec_scanList h4

theorem scan_procSub (ext : Externals) (secrets : Secrets) :
    ProcSub (fun c => tunnelingEligible ext c = true) routeRefs
      (scanRouteConfigurations ext secrets) := by
  have h1 : ProcSub (fun c => tunnelingEligible ext c = true)
      (fun rts => rts.flatMap routeRefsOf) (processRoutes ext secrets) :=
    procSub_scanList (processRoute_procSub ext secrets)
  have h2 : ProcSub (fun c => tunnelingEligible ext c = true) vhRefs
      (processVirtualHost ext secrets) :=
    procSub_lift (fun (vh : VirtualHost) => vh.routes)
      (fun vh rts => { vh with routes := rts }) h1
  have h3 : ProcSub (fun c => tunnelingEligible ext c = true)
      (fun vhs => vhs.flatMap vhRefs) (processVirtualHosts ext secrets) :=
    procSub_scanList h2
  have h4 : ProcSub (fun c => tunnelingEligible ext c = true) rcRefs
      (processRouteConfiguration ext secrets) :=
    procSub_lift (fun (rc : RouteConfiguration) => rc.virtualHosts)
      (fun rc vhs => { rc with virtualHosts := vhs }) h3
  exact procSub_scanList h4

theorem scan_outRefs (ext : Externals) (secrets : Secrets) :
    OutRel (fun rcs rcs' =>
        RefsOK (fun c => tunnelingEligible ext c = true) (routeRefs rcs) (routeRefs rcs'))
      (scanRouteConfigurations ext secrets) := by
  have r1 := outRel_scanList (processRoute_outRefs ext secrets)
  have r1' : OutRel (fun rts rts' =>
      RefsOK (fun c => tunnelingEligible ext c = true)
        (rts.flatMap routeRefsOf) (rts'.flatMap routeRefsOf))
      (processRoutes ext secrets) :=
    fun st a a' st' h => forall₂_refsOK_flatMap (r1 st a a' st' h)
  have r2 : OutRel (fun vh vh' =>
      RefsOK (fun c => tunnelingEligible ext c = true) (vhRefs vh) (vhRefs vh'))
      (processVirtualHost ext secrets) :=
    outRel_lift (fun (vh : VirtualHost) => vh.routes)
      (fun vh rts => { vh with routes := rts }) (fun _ _ => rfl) r1'
  have r3 := outRel_scanList r2
  have r3' : OutRel (fun vhs vhs' =>
      RefsOK (fun c => tunnelingEligible ext c = true)
        (vhs.flatMap vhRefs) (vhs'.flatMap vhRefs))
      (processVirtualHosts ext secrets) :=
    fun st a a' st' h => forall₂_refsOK_flatMap (r3 st a a' st' h)
  have r4 : OutRel (fun rc rc' =>
      RefsOK (fun c => tunnelingEligible ext c = true) (rcRefs rc) (rcRefs rc'))
      (processRouteConfiguration ext secrets) :=
    outRel_lift (fun (rc : RouteConfiguration) => rc.virtualHosts)
      (fun rc vhs => { rc with virtualHosts := vhs }) (fun _ _ => rfl) r3'
  have r5 := outRel_scanList r4
  exact fun st a a' st' h => forall₂_refsOK_flatMap (r5 st a a' st' h)

theorem scan_outRW (ext : Externals) (secrets : Secrets) :
    OutRel (List.Forall₂ (fun rc rc' =>
        List.Forall₂ (fun vh vh' =>
          List.Forall₂ (fun rt rt' =>
            ∀ c, routeCluster rt = some c → tunnelingEligible ext c = true →
              rt' = rewriteRoute rt (selfClusterName c))
            vh.routes vh'.routes)
          rc.virtualHosts rc'.virtualHosts))
      (scanRouteConfigurations ext secrets) := by
  have w1 := outRel_scanList (processRoute_outRW ext secrets)
  have w2 : OutRel (fun vh vh' =>
      List.Forall₂ (fun rt rt' =>
        ∀ c, routeCluster rt = some c → tunnelingEligible ext c = true →
          rt' = rewriteRoute rt (selfClusterName c)) vh.routes vh'.routes)
      (processVirtualHost ext secrets) :=
    outRel_lift (fun (vh : VirtualHost) => vh.routes)
      (fun vh rts => { vh with routes := rts }) (fun _ _ => rfl) w1
  have w3 := outRel_scanList w2
  have w4 : OutRel (fun rc rc' =>
      List.Forall₂ (fun vh vh' =>
        List.Forall₂ (fun rt rt' =>
          ∀ c, routeCluster rt = some c → tunnelingEligible ext c = true →
            rt' = rewriteRoute rt (selfClusterName c)) vh.routes vh'.routes)
        rc.virtualHosts rc'.virtualHosts)
      (processRouteConfiguration ext secrets) :=
    outRel_lift (fun (rc : RouteConfiguration) => rc.virtualHosts)
      (fun rc vhs => { rc with virtualHosts := vhs }) (fun _ _ => rfl) w3
  exact outRel_scanList w4

/-! Value-level invariant: what the scan does to the cluster list and what the
generated clusters carry. -/

theorem updateInClusters_done_inv {ext : Externals} {secrets : Secrets} {us : Upstream}
    {c : String} {l cs : List Cluster} {ts : Option TransportSocket}
    (h : updateInClusters ext secrets us c l = .done cs ts) :
    ts = origTS l c ∧
    (∀ d, d ≠ c → findCluster d cs = findCluster d l) ∧
    ((findCluster c l = none ∧ cs = l) ∨
     (∃ cl₀ ts', findCluster c l = some cl₀ ∧
        findCluster c cs = some { stripCluster cl₀ with transportSocket := ts' } ∧
        ((us.httpConnectSslConfig = none ∧ ts' = none) ∨
         (∃ ssl cfg t, us.httpConnectSslConfig = some ssl ∧
            ext.resolveUpstreamSslConfig secrets ssl = some cfg ∧
            ext.messageToAny (.tlsContext cfg) = .ok t ∧
            ts' = some { name := transportSocketTls, typedConfig := some t })))) := by
  rcases updateInClusters_inversion ext secrets us c l with ⟨hf, heq⟩ | ⟨cl₀, hf, hcase⟩
  · rw [h] at heq
    injection heq with h1 h2
    subst h1
    subst h2
    refine ⟨by rw [origTS, hf], fun d _ => rfl, Or.inl ⟨hf, rfl⟩⟩
  · rcases hcase with ⟨hssl, heq⟩ | ⟨ssl, hssl, hcase2⟩
    · rw [h] at heq
      injection heq with h1 h2
      subst h1
      subst h2
      refine ⟨by rw [origTS, hf], fun d hd => findCluster_stripFirst_ne hd l, Or.inr ?_⟩
      refine ⟨cl₀, none, hf, ?_, Or.inl ⟨hssl, rfl⟩⟩
      rw [findCluster_stripFirst_self hf]
      rfl
    · rcases hcase2 with ⟨hres, heq⟩ | ⟨cfg, hres, hcase3⟩
      · rw [h] at heq
        cases heq
      · rcases hcase3 with ⟨e, hser, heq⟩ | ⟨t, hser, heq⟩
        · rw [h] at heq
          cases heq
        · rw [h] at heq
          injection heq with h1 h2
          subst h1
          subst h2
          refine ⟨by rw [origTS, hf], fun d hd => findCluster_setFirstTls_ne hd t l, Or.inr ?_⟩
          exact ⟨cl₀, some { name := transportSocketTls, typedConfig := some t }, hf,
            findCluster_setFirstTls_self t hf, Or.inr ⟨ssl, cfg, t, hssl, hres, hser, rfl⟩⟩

theorem processRoute_inv_cont (ext : Externals) (secrets : Secrets) (inCl₀ : List Cluster) :
    ContPres (Inv ext secrets inCl₀) (processRoute ext secrets) := by
  intro st rt rt' st' h hp
  rcases processRoute_cont_inv h with ⟨-, rfl, -⟩ | ⟨c, us, hc, hu, hh, he⟩
  · exact hp
  · rcases processEligible_cont_inv he with ⟨-, ⟨-, rfl⟩ | ⟨hmem, cs, ts, l, hdone, hok, rfl⟩⟩
    · exact hp
    · obtain ⟨hgen, hfree, hproc⟩ := hp
      obtain ⟨hts, hother, hcase⟩ := updateInClusters_done_inv hdone
      have hfc : findCluster c st.clusters = findCluster c inCl₀ := hfree c hmem
      have hts0 : ts = origTS inCl₀ c := by
        rw [hts, origTS, origTS, hfc]
      refine ⟨?_, ?_, ?_⟩
      · simp only [List.map_append, List.map_cons, List.map_nil, hgen, hts0]
      · intro d hd
        have hdc : d ≠ c := by
          intro hEq
          exact hd (hEq ▸ List.mem_append.mpr (Or.inr (List.mem_singleton.mpr rfl)))
        have hd0 : d ∉ st.processedClusters :=
          fun hmem2 => hd (List.mem_append.mpr (Or.inl hmem2))
        rw [hother d hdc]
        exact hfree d hd0
      · intro d hd
        rcases List.mem_append.mp hd with hd | hd
        · have hdc : d ≠ c := by
            intro hEq
            exact hmem (hEq ▸ hd)
          obtain ⟨hnone, hsome⟩ := hproc d hd
          refine ⟨?_, ?_⟩
          · intro h0
            rw [hother d hdc]
            exact hnone h0
          · intro cl₀ h0
            obtain ⟨ts', hfind, hspec⟩ := hsome cl₀ h0
            exact ⟨ts', by rw [hother d hdc]; exact hfind, hspec⟩
        · rw [List.mem_singleton] at hd
          subst hd
          refine ⟨?_, ?_⟩
          · intro h0
            rcases hcase with ⟨-, rfl⟩ | ⟨cl₀, ts', hfl, -, -⟩
            · rw [hfc]
              exact h0
            · rw [hfc] at hfl
              rw [h0] at hfl
              cases hfl
          · intro cl₀ h0
            rcases hcase with ⟨hfl, rfl⟩ | ⟨cl₁, ts', hfl, hfind, hspec⟩
            · rw [hfc, h0] at hfl
              cases hfl
            · rw [hfc, h0] at hfl
              injection hfl with hfl
              subst hfl
              refine ⟨ts', hfind, us, hu, ?_⟩
              rcases hspec with ⟨hssl, rfl⟩ | ⟨ssl, cfg, t, hssl, hres, hser, rfl⟩
              · exact Or.inl ⟨hssl, rfl⟩
              · exact Or.inr ⟨ssl, cfg, t, hssl, hres, hser, rfl⟩

theorem scan_inv_cont (ext : Externals) (secrets : Secrets) (inCl₀ : List Cluster) :
    ContPres (Inv ext secrets inCl₀) (scanRouteConfigurations ext secrets) := by
  have h1 : ContPres (Inv ext secrets inCl₀) (processRoutes ext secrets) :=
    contPres_scanList (processRoute_inv_cont ext secrets inCl₀)
  have h2 : ContPres (Inv ext secrets inCl₀) (processVirtualHost ext secrets) :=
    contPres_lift (fun (vh : VirtualHost) => vh.routes)
      (fun vh rts => { vh with routes := rts }) h1
  have h3 : ContPres (Inv ext secrets inCl₀) (processVirtualHosts ext secrets) :=
    contPres_scanList h2
  have h4 : ContPres (Inv ext secrets inCl₀) (processRouteConfiguration ext secrets) :=
    contPres_lift (fun (rc : RouteConfiguration) => rc.virtualHosts)
      (fun rc vhs => { rc with virtualHosts := vhs }) h3
  exact contPres_scanList h4

/-! Forward lemmas for the listener generator. -/

theorem generateForwardingTcpListener_ok_of {ext : Externals} {c sp hn : String}
    {hdrs : List HeaderValueOption} {t : TypedAny}
    (h : ext.messageToAny (.tcpProxy (tcpProxyCfg c hn hdrs)) = .ok t) :
    generateForwardingTcpListener ext c sp hn hdrs = .ok
      { name := selfListenerName c
        address := some (.pipe sp)
        filterChains := [{ filters := [{ name := "tcp", typedConfig := some t }] }] } := by
  unfold generateForwardingTcpListener
  rw [h]
  rfl

theorem generateForwardingTcpListener_error_of {ext : Externals} {c sp hn : String}
    {hdrs : List HeaderValueOption} {e : String}
    (h : ext.messageToAny (.tcpProxy (tcpProxyCfg c hn hdrs)) = .error e) :
    generateForwardingTcpListener ext c sp hn hdrs = .error e := by
  unfold generateForwardingTcpListener
  rw [h]

/-! Forward characterizations of `processEligible` from the inner-loop outcome. -/

theorem processEligible_of_soft {ext : Externals} {secrets : Secrets} {st : ScanState}
    {rt : Route} {c : String} {us : Upstream} {hn : String} {cs : List Cluster}
    (hmem : c ∉ st.processedClusters)
    (hsoft : updateInClusters ext secrets us c st.clusters = .softAbort cs) :
    processEligible ext secrets st rt c us hn =
      .softAbort (rewriteRoute rt (selfClusterName c)) { st with clusters := cs } := by
  cases hres : processEligible ext secrets st rt c us hn with
  | cont rt' st' =>
    obtain ⟨-, hcase⟩ := processEligible_cont_inv hres
    rcases hcase with ⟨hmem2, -⟩ | ⟨-, cs2, ts2, l2, hdone2, -, -⟩
    · exact absurd hmem2 hmem
    · rw [hsoft] at hdone2
      cases hdone2
  | softAbort rt' st' =>
    obtain ⟨hrt, -, cs2, hsoft2, hst⟩ := processEligible_soft_inv hres
    rw [hsoft] at hsoft2
    injection hsoft2 with h1
    subst h1
    rw [hrt, hst]
  | hardError rt' st' e =>
    obtain ⟨-, -, hcase⟩ := processEligible_hard_inv hres
    rcases hcase with ⟨cs2, hhard2, -⟩ | ⟨cs2, ts2, hdone2, -, -⟩
    · rw [hsoft] at hhard2
      cases hhard2
    · rw [hsoft] at hdone2
      cases hdone2

theorem processEligible_of_hardUpdate {ext : Externals} {secrets : Secrets} {st : ScanState}
    {rt : Route} {c : String} {us : Upstream} {hn : String} {cs : List Cluster} {e : String}
    (hmem : c ∉ st.processedClusters)
    (hhard : updateInClusters ext secrets us c st.clusters = .hardError cs e) :
    processEligible ext secrets st rt c us hn =
      .hardError (rewriteRoute rt (selfClusterName c)) { st with clusters := cs } e := by
  cases hres : processEligible ext secrets st rt c us hn with
  | cont rt' st' =>
    obtain ⟨-, hcase⟩ := processEligible_cont_inv hres
    rcases hcase with ⟨hmem2, -⟩ | ⟨-, cs2, ts2, l2, hdone2, -, -⟩
    · exact absurd hmem2 hmem
    · rw [hhard] at hdone2
      cases hdone2
  | softAbort rt' st' =>
    obtain ⟨-, -, cs2, hsoft2, -⟩ := processEligible_soft_inv hres
    rw [hhard] at hsoft2
    cases hsoft2
  | hardError rt' st' e2 =>
    obtain ⟨hrt, -, hcase⟩ := processEligible_hard_inv hres
    rcases hcase with ⟨cs2, hhard2, hst⟩ | ⟨cs2, ts2, hdone2, -, -⟩
    · rw [hhard] at hhard2
      injection hhard2 with h1 h2
      subst h1
      subst h2
      rw [hrt, hst]
    · rw [hhard] at hdone2
      cases hdone2

theorem processEligible_of_done_ok {ext : Externals} {secrets : Secrets} {st : ScanState}
    {rt : Route} {c : String} {us : Upstream} {hn : String} {cs : List Cluster}
    {ts : Option TransportSocket} {l : Listener}
    (hmem : c ∉ st.processedClusters)
    (hdone : updateInClusters ext secrets us c st.clusters = .done cs ts)
    (hok : generateForwardingTcpListener ext c (selfPipeName c) hn
      (tunnelingHeadersOf us.httpConnectHeaders) = .ok l) :
    processEligible ext secrets st rt c us hn =
      .cont (rewriteRoute rt (selfClusterName c))
        { st with
           clusters := cs
           generatedClusters := st.generatedClusters ++
             [generateSelfCluster (selfClusterName c) (selfPipeName c) ts]
           generatedListeners := st.generatedListeners ++ [l]
           processedClusters := st.processedClusters ++ [c] } := by
  cases hres : processEligible ext secrets st rt c us hn with
  | cont rt' st' =>
    obtain ⟨hrt, hcase⟩ := processEligible_cont_inv hres
    rcases hcase with ⟨hmem2, -⟩ | ⟨-, cs2, ts2, l2, hdone2, hok2, hst⟩
    · exact absurd hmem2 hmem
    · rw [hdone] at hdone2
      injection hdone2 with h1 h2
      subst h1
      subst h2
      rw [hok] at hok2
      injection hok2 with h3
      subst h3
      rw [hrt, hst]
  | softAbort rt' st' =>
    obtain ⟨-, -, cs2, hsoft2, -⟩ := processEligible_soft_inv hres
    rw [hdone] at hsoft2
    cases hsoft2
  | hardError rt' st' e =>
    obtain ⟨-, -, hcase⟩ := processEligible_hard_inv hres
    rcases hcase with ⟨cs2, hhard2, -⟩ | ⟨cs2, ts2, hdone2, herr2, -⟩
    · rw [hdone] at hhard2
      cases hhard2
    · rw [hdone] at hdone2
      injection hdone2 with h1 h2
      subst h1
      subst h2
      rw [hok] at herr2
      cases herr2

theorem processEligible_of_done_err {ext : Externals} {secrets : Secrets} {st : ScanState}
    {rt : Route} {c : String} {us : Upstream} {hn : String} {cs : List Cluster}
    {ts : Option TransportSocket} {e : String}
    (hmem : c ∉ st.processedClusters)
    (hdone : updateInClusters ext secrets us c st.clusters = .done cs ts)
    (herr : generateForwardingTcpListener ext c (selfPipeName c) hn
      (tunnelingHeadersOf us.httpConnectHeaders) = .error e) :
    processEligible ext secrets st rt c us hn =
      .hardError (rewriteRoute rt (selfClusterName c))
        { st with
           clusters := cs
           generatedClusters := st.generatedClusters ++
             [generateSelfCluster (selfClusterName c) (selfPipeName c) ts] } e := by
  cases hres : processEligible ext secrets st rt c us hn with
  | cont rt' st' =>
    obtain ⟨-, hcase⟩ := processEligible_cont_inv hres
    rcases hcase with ⟨hmem2, -⟩ | ⟨-, cs2, ts2, l2, hdone2, hok2, -⟩
    · exact absurd hmem2 hmem
    · rw [hdone] at hdone2
      injection hdone2 with h1 h2
      subst h1
      subst h2
      rw [herr] at hok2
      cases hok2
  | softAbort rt' st' =>
    obtain ⟨-, -, cs2, hsoft2, -⟩ := processEligible_soft_inv hres
    rw [hdone] at hsoft2
    cases hsoft2
  | hardError rt' st' e2 =>
    obtain ⟨hrt, -, hcase⟩ := processEligible_hard_inv hres
    rcases hcase with ⟨cs2, hhard2, -⟩ | ⟨cs2, ts2, hdone2, herr2, hst⟩
    · rw [hdone] at hhard2
      cases hhard2
    · rw [hdone] at hdone2
      injection hdone2 with h1 h2
      subst h1
      subst h2
      rw [herr] at herr2
      injection herr2 with h3
      subst h3
      rw [hrt, hst]

/-! The ten claims. -/

/-- C7: a route whose action is a weighted-cluster set or a cluster-by-header
selection, and a single-cluster route whose resolved upstream has an empty
tunneling hostname, are left completely unmodified, generate no cluster or
listener, and scanning continues with the subsequent routes. -/
theorem claim_C7 :
    (∀ (ext : Externals) (secrets : Secrets) (st : ScanState) (rt : Route)
        (ra : RouteAction) (w : List (String × Nat)),
      rt.routeAction = some ra → ra.clusterSpecifier = some (.weightedClusters w) →
      processRoute ext secrets st rt = .cont rt st) ∧
    (∀ (ext : Externals) (secrets : Secrets) (st : ScanState) (rt : Route)
        (ra : RouteAction) (hd : String),
      rt.routeAction = some ra → ra.clusterSpecifier = some (.clusterHeader hd) →
      processRoute ext secrets st rt = .cont rt st) ∧
    (∀ (ext : Externals) (secrets : Secrets) (st : ScanState) (rt : Route)
        (c : String) (us : Upstream),
      routeCluster rt = some c → upstreamFor ext c = some us →
      us.httpProxyHostname.getD "" = "" →
      processRoute ext secrets st rt = .cont rt st) ∧
    (∀ (ext : Externals) (secrets : Secrets) (st : ScanState) (rt : Route)
        (rest : List Route),
      processRoute ext secrets st rt = .cont rt st →
      processRoutes ext secrets st (rt :: rest) =
        (processRoutes ext secrets st rest).map (fun l => rt :: l)) := by
  refine ⟨?_, ?_, ?_, ?_⟩
  · intro ext secrets st rt ra w h1 h2
    exact processRoute_skip_nonSingle (by simp [routeCluster, h1, h2])
  · intro ext secrets st rt ra hd h1 h2
    exact processRoute_skip_nonSingle (by simp [routeCluster, h1, h2])
  · intro ext secrets st rt c us h1 h2 h3
    exact processRoute_skip_noHostname h1 h2 h3
  · intro ext secrets st rt rest h
    unfold processRoutes
    simp only [scanList, h]
    cases hrest : scanList (processRoute ext secrets) st rest <;> simp [Scan.map, hrest]

/-- Witness for C7 at concrete inputs: a weighted route, a header route, and a
route to the non-tunneling upstream `c2` are untouched and the scan continues. -/
theorem claim_C7_witness :
    processRoute extBase 0 st0 rtWeighted = .cont rtWeighted st0 ∧
    processRoute extBase 0 st0 rtHeader = .cont rtHeader st0 ∧
    processRoute extBase 0 st0 (rtTo "c2") = .cont (rtTo "c2") st0 ∧
    processRoutes extBase 0 st0 (rtWeighted :: [rtTo "c1"]) =
      (processRoutes extBase 0 st0 [rtTo "c1"]).map (fun l => rtWeighted :: l) :=
  ⟨claim_C7.1 extBase 0 st0 rtWeighted _ [("a", 1)] rfl rfl,
   claim_C7.2.1 extBase 0 st0 rtHeader _ "H" rfl rfl,
   claim_C7.2.2.1 extBase 0 st0 (rtTo "c2") "c2" usNoTunnel (by decide) (by decide) (by decide),
   claim_C7.2.2.2 extBase 0 st0 rtWeighted [rtTo "c1"]
     (claim_C7.1 extBase 0 st0 rtWeighted _ [("a", 1)] rfl rfl)⟩

/-- C3: a reference-parse failure, an upstream-lookup failure, or a tunnel-SSL
resolution failure stops the scan immediately and the plugin returns the
clusters and listeners generated before the failure together with a nil error;
none of these three conditions surfaces an error. -/
theorem claim_C3 :
    (∀ (ext : Externals) (secrets : Secrets) (st : ScanState) (rt : Route) (c : String),
      routeCluster rt = some c → ext.clusterToUpstreamRef c = none →
      processRoute ext secrets st rt = .softAbort rt st) ∧
    (∀ (ext : Externals) (secrets : Secrets) (st : ScanState) (rt : Route) (c : String)
        (ref : UpstreamRef),
      routeCluster rt = some c → ext.clusterToUpstreamRef c = some ref →
      ext.findUpstream ref.ns ref.name = none →
      processRoute ext secrets st rt = .softAbort rt st) ∧
    (∀ (ext : Externals) (secrets : Secrets) (st : ScanState) (rt : Route) (c : String)
        (us : Upstream) (cl₀ : Cluster) (ssl : UpstreamSslConfig),
      routeCluster rt = some c → upstreamFor ext c = some us →
      us.httpProxyHostname.getD "" ≠ "" → c ∉ st.processedClusters →
      findCluster c st.clusters = some cl₀ →
      us.httpConnectSslConfig = some ssl →
      ext.resolveUpstreamSslConfig secrets ssl = none →
      processRoute ext secrets st rt =
        .softAbort (rewriteRoute rt (selfClusterName c))
          { st with clusters := stripFirst c st.clusters }) ∧
    (∀ (ext : Externals) (secrets : Secrets) (inClusters : List Cluster)
        (inEndpoints : List ClusterLoadAssignment) (rcs : List RouteConfiguration)
        (inListeners : List Listener) (rcs' : List RouteConfiguration) (st' : ScanState),
      scanRouteConfigurations ext secrets (initState inClusters) rcs = .softAbort rcs' st' →
      GeneratedResources ext secrets inClusters inEndpoints rcs inListeners =
        { routeConfigurations := rcs'
          clusters := st'.clusters
          ret := { retClusters := some st'.generatedClusters
                   retEndpoints := none
                   retRouteConfigurations := none
                   retListeners := some st'.generatedListeners
                   retError := none } }) := by
  refine ⟨?_, ?_, ?_, ?_⟩
  · intro ext secrets st rt c h hp
    exact processRoute_soft_parseFail h hp
  · intro ext secrets st rt c ref h hp hf
    exact processRoute_soft_findFail h hp hf
  · intro ext secrets st rt c us cl₀ ssl h hu hh hmem hfc hssl hres
    rw [processRoute_eligible h hu hh]
    exact processEligible_of_soft hmem (updateInClusters_of_resolveFail hfc hssl hres)
  · intro ext secrets inClusters inEndpoints rcs inListeners rcs' st' h
    unfold GeneratedResources
    rw [h]

/-- Witness for C3: parse failure, lookup failure, TLS-resolution failure on
concrete inputs each soft-abort; the top-level call returns the partial result
with no error. -/
theorem claim_C3_witness :
    processRoute extParseFail 0 st0 (rtTo "c1") = .softAbort (rtTo "c1") st0 ∧
    processRoute extFindFail 0 st0 (rtTo "c1") = .softAbort (rtTo "c1") st0 ∧
    processRoute extResolveFail 0 st0 (rtTo "c3") =
      .softAbort (rewriteRoute (rtTo "c3") (selfClusterName "c3"))
        { st0 with clusters := stripFirst "c3" st0.clusters } ∧
    GeneratedResources extParseFail 0 [] [] [rcOf [rtTo "c1"]] [] =
      { routeConfigurations := [rcOf [rtTo "c1"]]
        clusters := []
        ret := { retClusters := some []
                 retEndpoints := none
                 retRouteConfigurations := none
                 retListeners := some []
                 retError := none } } :=
  ⟨claim_C3.1 extParseFail 0 st0 (rtTo "c1") "c1" (by decide) rfl,
   claim_C3.2.1 extFindFail 0 st0 (rtTo "c1") "c1" { ns := "gloo-system", name := "c1" }
     (by decide) rfl rfl,
   claim_C3.2.2.1 extResolveFail 0 st0 (rtTo "c3") "c3" usSsl (clNamed "c3" (some tlsA))
     { token := 1 } (by decide) (by decide) (by decide) (by decide) (by decide) rfl rfl,
   claim_C3.2.2.2 extParseFail 0 [] [] [rcOf [rtTo "c1"]] [] [rcOf [rtTo "c1"]]
     (initState []) (by decide)⟩

/-- C4: a serialization failure of either the resolved tunnel-SSL transport
configuration or the TCP-tunneling filter configuration is a hard error: the
route-level step produces a hard error, and the plugin then returns a non-nil
error with all four resource outputs nil, discarding everything generated
earlier in the pass. -/
theorem claim_C4 :
    (∀ (ext : Externals) (secrets : Secrets) (st : ScanState) (rt : Route) (c : String)
        (us : Upstream) (cl₀ : Cluster) (ssl : UpstreamSslConfig) (cfg : UpstreamTlsContext)
        (e : String),
      routeCluster rt = some c → upstreamFor ext c = some us →
      us.httpProxyHostname.getD "" ≠ "" → c ∉ st.processedClusters →
      findCluster c st.clusters = some cl₀ →
      us.httpConnectSslConfig = some ssl →
      ext.resolveUpstreamSslConfig secrets ssl = some cfg →
      ext.messageToAny (.tlsContext cfg) = .error e →
      processRoute ext secrets st rt =
        .hardError (rewriteRoute rt (selfClusterName c))
          { st with clusters := stripFirst c st.clusters } e) ∧
    (∀ (ext : Externals) (secrets : Secrets) (st : ScanState) (rt : Route) (c : String)
        (us : Upstream) (e : String),
      routeCluster rt = some c → upstreamFor ext c = some us →
      us.httpProxyHostname.getD "" ≠ "" → c ∉ st.processedClusters →
      us.httpConnectSslConfig = none →
      ext.messageToAny (.tcpProxy (tcpProxyCfg c (us.httpProxyHostname.getD "")
        (tunnelingHeadersOf us.httpConnectHeaders))) = .error e →
      processRoute ext secrets st rt =
        .hardError (rewriteRoute rt (selfClusterName c))
          { st with
             clusters := stripFirst c st.clusters
             generatedClusters := st.generatedClusters ++
               [generateSelfCluster (selfClusterName c) (selfPipeName c)
                 (origTS st.clusters c)] } e) ∧
    (∀ (ext : Externals) (secrets : Secrets) (inClusters : List Cluster)
        (inEndpoints : List ClusterLoadAssignment) (rcs : List RouteConfiguration)
        (inListeners : List Listener) (rcs' : List RouteConfiguration) (st' : ScanState)
        (e : String),
      scanRouteConfigurations ext secrets (initState inClusters) rcs = .hardError rcs' st' e →
      GeneratedResources ext secrets inClusters inEndpoints rcs inListeners =
        { routeConfigurations := rcs'
          clusters := st'.clusters
          ret := { retClusters := none
                   retEndpoints := none
                   retRouteConfigurations := none
                   retListeners := none
                   retError := some e } }) := by
  refine ⟨?_, ?_, ?_⟩
  · intro ext secrets st rt c us cl₀ ssl cfg e h hu hh hmem hfc hssl hres hser
    rw [processRoute_eligible h hu hh]
    exact processEligible_of_hardUpdate hmem
      (updateInClusters_of_serializeFail hfc hssl hres hser)
  · intro ext secrets st rt c us e h hu hh hmem hssl hser
    rw [processRoute_eligible h hu hh]
    cases hfc : findCluster c st.clusters with
    | none =>
      rw [stripFirst_of_none hfc]
      simp only [origTS, hfc]
      exact processEligible_of_done_err hmem (updateInClusters_of_absent hfc)
        (generateForwardingTcpListener_error_of hser)
    | some cl₀ =>
      simp only [origTS, hfc]
      exact processEligible_of_done_err hmem (updateInClusters_of_noSsl hfc hssl)
        (generateForwardingTcpListener_error_of hser)
  · intro ext secrets inClusters inEndpoints rcs inListeners rcs' st' e h
    unfold GeneratedResources
    rw [h]

/-- Witness for C4: with a failing serializer, the TLS-serialization route step
and the listener-serialization route step are hard errors, and the top-level
call returns the error with nil resources. -/
theorem claim_C4_witness :
    processRoute extSerFail 0 st0 (rtTo "c3") =
      .hardError (rewriteRoute (rtTo "c3") (selfClusterName "c3"))
        { st0 with clusters := stripFirst "c3" st0.clusters } "boom" ∧
    processRoute extSerFail 0 st0 (rtTo "c1") =
      .hardError (rewriteRoute (rtTo "c1") (selfClusterName "c1"))
        { st0 with
           clusters := stripFirst "c1" st0.clusters
           generatedClusters := st0.generatedClusters ++
             [generateSelfCluster (selfClusterName "c1") (selfPipeName "c1")
               (origTS st0.clusters "c1")] } "boom" ∧
    GeneratedResources extSerFail 0 [clNamed "c1" (some tlsA)] [] [rcOf [rtTo "c1"]] [] =
      { routeConfigurations := [rcOf [rewriteRoute (rtTo "c1") (selfClusterName "c1")]]
        clusters := stripFirst "c1" [clNamed "c1" (some tlsA)]
        ret := { retClusters := none
                 retEndpoints := none
                 retRouteConfigurations := none
                 retListeners := none
                 retError := some "boom" } } :=
  ⟨claim_C4.1 extSerFail 0 st0 (rtTo "c3") "c3" usSsl (clNamed "c3" (some tlsA))
     { token := 1 } { token := 7 } "boom"
     (by decide) (by decide) (by decide) (by decide) (by decide) rfl rfl rfl,
   claim_C4.2.1 extSerFail 0 st0 (rtTo "c1") "c1" usPlain "boom"
     (by decide) (by decide) (by decide) (by decide) rfl rfl,
   claim_C4.2.2 extSerFail 0 [clNamed "c1" (some tlsA)] [] [rcOf [rtTo "c1"]] []
     [rcOf [rewriteRoute (rtTo "c1") (selfClusterName "c1")]]
     { clusters := stripFirst "c1" [clNamed "c1" (some tlsA)]
       processedClusters := []
       generatedClusters := [generateSelfCluster (selfClusterName "c1") (selfPipeName "c1")
         (some tlsA)]
       generatedListeners := [] } "boom" (by decide)⟩

/-- C9: a tunneling-eligible route whose original cluster name matches no input
cluster is still rewritten, and the self cluster (with no transport socket) and
self listener are still generated without any error; the absent cluster is not
detected. -/
theorem claim_C9 :
    ∀ (ext : Externals) (secrets : Secrets) (st : ScanState) (rt : Route) (c : String)
      (us : Upstream) (t : TypedAny),
    routeCluster rt = some c →
    upstreamFor ext c = some us →
    us.httpProxyHostname.getD "" ≠ "" →
    c ∉ st.processedClusters →
    (∀ cl ∈ st.clusters, cl.name ≠ c) →
    ext.messageToAny (.tcpProxy (tcpProxyCfg c (us.httpProxyHostname.getD "")
      (tunnelingHeadersOf us.httpConnectHeaders))) = .ok t →
    processRoute ext secrets st rt =
      .cont (rewriteRoute rt (selfClusterName c))
        { st with
           generatedClusters := st.generatedClusters ++
             [generateSelfCluster (selfClusterName c) (selfPipeName c) none]
           generatedListeners := st.generatedListeners ++
             [{ name := selfListenerName c
                address := some (.pipe (selfPipeName c))
                filterChains := [{ filters := [{ name := "tcp", typedConfig := some t }] }] }]
           processedClusters := st.processedClusters ++ [c] } := by
  intro ext secrets st rt c us t h hu hh hmem habs hser
  rw [processRoute_eligible h hu hh]
  exact processEligible_of_done_ok hmem
    (updateInClusters_of_absent (findCluster_eq_none_iff.mpr habs))
    (generateForwardingTcpListener_ok_of hser)

/-- Witness for C9: a route to `c1` with an empty input cluster list is
rewritten and the self pair is generated with no transport socket. -/
theorem claim_C9_witness :
    processRoute extBase 0 (initState []) (rtTo "c1") =
      .cont (rewriteRoute (rtTo "c1") (selfClusterName "c1"))
        { initState [] with
           generatedClusters := [generateSelfCluster (selfClusterName "c1")
             (selfPipeName "c1") none]
           generatedListeners :=
             [{ name := selfListenerName "c1"
                address := some (.pipe (selfPipeName "c1"))
                filterChains :=
                  [{ filters := [{ name := "tcp", typedConfig := some { blob := "blob" } }] }] }]
           processedClusters := ["c1"] } :=
  claim_C9 extBase 0 (initState []) (rtTo "c1") "c1" usPlain { blob := "blob" }
    (by decide) (by decide) (by decide) (by decide) (by decide) rfl

theorem tunnelingHeadersOf_eq_map (headers : List HeaderValue) :
    tunnelingHeadersOf headers = headers.map
      (fun h => { header := { key := h.key, value := h.value }, append := some false }) := by
  have gen : ∀ (acc : List HeaderValueOption) (hs : List HeaderValue),
      hs.foldl (fun acc header =>
        acc ++ [{ header := { key := header.key, value := header.value }
                  append := some false }]) acc
      = acc ++ hs.map (fun h => { header := { key := h.key, value := h.value }
                                  append := some false }) := by
    intro acc hs
    induction hs generalizing acc with
    | nil => simp
    | cons h rest ih => simp [List.foldl_cons, ih]
  simpa [tunnelingHeadersOf] using gen [] headers

/-- C10: the generated TCP-tunneling configuration carries a `headersToAdd` list
of the same length and order as the upstream's CONNECT header list, each entry
preserving the original key and value with its append flag set to false. -/
theorem claim_C10 :
    ∀ (headers : List HeaderValue) (c host : String) (i : Nat),
      (tunnelingHeadersOf headers).length = headers.length ∧
      (tunnelingHeadersOf headers)[i]? = (headers[i]?).map
        (fun h => { header := { key := h.key, value := h.value }, append := some false }) ∧
      (tcpProxyCfg c host (tunnelingHeadersOf headers)).tunnelingConfig =
        some { hostname := host, headersToAdd := tunnelingHeadersOf headers } := by
  intro headers c host i
  refine ⟨?_, ?_, rfl⟩
  · rw [tunnelingHeadersOf_eq_map, List.length_map]
  · rw [tunnelingHeadersOf_eq_map, List.getElem?_map]

/-- C6: the generated identifiers are the deterministic strings built from the
original cluster name, and the self cluster's single endpoint address and the
self listener's bind address are the identical pipe address, closing the loop. -/
theorem claim_C6 :
    ∀ (c host : String) (ts : Option TransportSocket) (ext : Externals)
      (hdrs : List HeaderValueOption) (l : Listener),
      selfClusterName c = "solo_io_generated_self_cluster_" ++ c ∧
      selfListenerName c = "solo_io_generated_self_listener_" ++ c ∧
      (tcpProxyCfg c host hdrs).statPre = "soloioTcpStats" ++ c ∧
      selfPipeName c = "@/" ++ c ∧
      (generateSelfCluster (selfClusterName c) (selfPipeName c) ts).name = selfClusterName c ∧
      endpointAddresses (generateSelfCluster (selfClusterName c) (selfPipeName c) ts) =
        [Address.pipe ("@/" ++ c)] ∧
      (generateForwardingTcpListener ext c (selfPipeName c) host hdrs = .ok l →
        l.name = selfListenerName c ∧ l.address = some (Address.pipe ("@/" ++ c))) := by
  intro c host ts ext hdrs l
  refine ⟨rfl, rfl, rfl, rfl, rfl, ?_, ?_⟩
  · simp [endpointAddresses, generateSelfCluster, selfPipeName]
  · intro h
    obtain ⟨t, -, rfl⟩ := generateForwardingTcpListener_ok_inv h
    exact ⟨rfl, rfl⟩

/-- Witness for C6: the loop closes on cluster `c1` — the single endpoint
address of its self cluster equals the bind address of its self listener. -/
theorem claim_C6_witness :
    endpointAddresses (generateSelfCluster (selfClusterName "c1") (selfPipeName "c1") none) =
      [Address.pipe ("@/" ++ "c1")] ∧
    lC6.name = selfListenerName "c1" ∧
    lC6.address = some (Address.pipe ("@/" ++ "c1")) :=
  ⟨(claim_C6 "c1" "proxy.example.com" none extBase [] lC6).2.2.2.2.2.1,
   (claim_C6 "c1" "proxy.example.com" none extBase [] lC6).2.2.2.2.2.2 rfl⟩

/-! Helpers for the whole-pass claims. -/

theorem scanCompleted_iff {ext : Externals} {secrets : Secrets}
    {inClusters : List Cluster} {rcs : List RouteConfiguration} :
    scanCompleted ext secrets inClusters rcs = true ↔
      ∃ rcs' st', scanRouteConfigurations ext secrets (initState inClusters) rcs =
        .cont rcs' st' := by
  unfold scanCompleted
  cases h : scanRouteConfigurations ext secrets (initState inClusters) rcs <;> simp [h]

theorem GeneratedResources_cont {ext : Externals} {secrets : Secrets}
    {inClusters : List Cluster} {inEndpoints : List ClusterLoadAssignment}
    {rcs rcs' : List RouteConfiguration} {inListeners : List Listener} {st' : ScanState}
    (h : scanRouteConfigurations ext secrets (initState inClusters) rcs = .cont rcs' st') :
    GeneratedResources ext secrets inClusters inEndpoints rcs inListeners =
      { routeConfigurations := rcs'
        clusters := st'.clusters
        ret := { retClusters := some st'.generatedClusters
                 retEndpoints := none
                 retRouteConfigurations := none
                 retListeners := some st'.generatedListeners
                 retError := none } } := by
  unfold GeneratedResources
  rw [h]

theorem initState_invNames (inClusters : List Cluster) : InvNames (initState inClusters) :=
  ⟨rfl, rfl, List.nodup_nil⟩

theorem initState_inv (ext : Externals) (secrets : Secrets) (inClusters : List Cluster) :
    Inv ext secrets inClusters (initState inClusters) :=
  ⟨rfl, fun _ _ => rfl, fun c h => absurd h (List.not_mem_nil c)⟩

theorem selfClusterName_injective2 : Function.Injective selfClusterName :=
  fun _ _ h => selfClusterName_injective h

theorem selfListenerName_injective2 : Function.Injective selfListenerName :=
  fun _ _ h => selfListenerName_injective h

theorem mem_processed_of_completed {ext : Externals} {secrets : Secrets}
    {inClusters : List Cluster} {rcs rcs' : List RouteConfiguration} {st' : ScanState}
    {c : String}
    (hscan : scanRouteConfigurations ext secrets (initState inClusters) rcs = .cont rcs' st')
    (hmem : c ∈ routeRefs rcs) (hel : tunnelingEligible ext c = true) :
    c ∈ st'.processedClusters := by
  have h := scan_procSpec ext secrets (initState inClusters) rcs rcs' st' hscan c
  rw [h]
  exact Or.inr ⟨hmem, hel⟩

theorem processed_eq_of_completed {ext : Externals} {secrets : Secrets}
    {inClusters : List Cluster} {rcs rcs' : List RouteConfiguration} {st' : ScanState}
    {c : String}
    (hscan : scanRouteConfigurations ext secrets (initState inClusters) rcs = .cont rcs' st') :
    c ∈ st'.processedClusters ↔ c ∈ routeRefs rcs ∧ tunnelingEligible ext c = true := by
  have h := scan_procSpec ext secrets (initState inClusters) rcs rcs' st' hscan c
  rw [h]
  simp [initState]

theorem filter_map_selfName {l : List String} {c : String} (F : String → Cluster)
    (hF : ∀ d, (F d).name = selfClusterName d) (hnd : l.Nodup) (hmem : c ∈ l) :
    (l.map F).filter (fun x => x.name == selfClusterName c) = [F c] := by
  induction l with
  | nil => cases hmem
  | cons a rest ih =>
    rw [List.map_cons, List.filter_cons]
    rcases List.mem_cons.mp hmem with rfl | hmem2
    · have hcond : ((F c).name == selfClusterName c) = true := by
        rw [hF c]
        exact beq_self_eq_true _
      rw [if_pos hcond]
      have hrest : (rest.map F).filter (fun x => x.name == selfClusterName c) = [] := by
        rw [List.filter_eq_nil_iff]
        intro x hx
        obtain ⟨d, hd, rfl⟩ := List.mem_map.mp hx
        rw [hF d]
        intro hbeq
        have : d = c := selfClusterName_injective (by
          have := of_decide_eq_true (by simpa using hbeq)
          exact this)
        exact (List.nodup_cons.mp hnd).1 (this ▸ hd)
      rw [hrest]
    · have hna : a ≠ c := fun hEq => (List.nodup_cons.mp hnd).1 (hEq ▸ hmem2)
      have hcond : ¬ ((F a).name == selfClusterName c) = true := by
        rw [hF a]
        intro hbeq
        exact hna (selfClusterName_injective (by
          have := of_decide_eq_true (by simpa using hbeq)
          exact this))
      rw [if_neg hcond]
      exact ih (List.nodup_cons.mp hnd).2 hmem2

/-- C5: every tunneling-eligible route encountered has its action rewritten to
the self-cluster name — regardless of the step's outcome and in particular even
when the cluster is already in the processed set — and in a completed pass
every eligible route of the output is the rewritten input route. -/
theorem claim_C5 :
    (∀ (ext : Externals) (secrets : Secrets) (st : ScanState) (rt : Route) (c : String),
      routeCluster rt = some c → tunnelingEligible ext c = true →
      (processRoute ext secrets st rt).val = rewriteRoute rt (selfClusterName c)) ∧
    (∀ (ext : Externals) (secrets : Secrets) (inClusters : List Cluster)
        (inEndpoints : List ClusterLoadAssignment) (rcs : List RouteConfiguration)
        (inListeners : List Listener),
      scanCompleted ext secrets inClusters rcs = true →
      List.Forall₂ (fun rc rc' =>
        List.Forall₂ (fun vh vh' =>
          List.Forall₂ (fun rt rt' =>
            ∀ c, routeCluster rt = some c → tunnelingEligible ext c = true →
              rt' = rewriteRoute rt (selfClusterName c))
            vh.routes vh'.routes)
          rc.virtualHosts rc'.virtualHosts)
        rcs
        (GeneratedResources ext secrets inClusters inEndpoints rcs inListeners).routeConfigurations) := by
  constructor
  · intro ext secrets st rt c h hel
    exact processRoute_val_of_eligible h hel
  · intro ext secrets inClusters inEndpoints rcs inListeners hdone
    obtain ⟨rcs', st', hscan⟩ := scanCompleted_iff.mp hdone
    rw [GeneratedResources_cont hscan]
    exact scan_outRW ext secrets (initState inClusters) rcs rcs' st' hscan

/-- Witness for C5: with two routes to the tunneling cluster `c1`, a completed
pass relates input and output by the rewrite relation, and the per-route step
on a state that already processed `c1` still rewrites. -/
theorem claim_C5_witness :
    (processRoute extBase 0
        { st0 with processedClusters := ["c1"] } (rtTo "c1")).val =
      rewriteRoute (rtTo "c1") (selfClusterName "c1") ∧
    List.Forall₂ (fun rc rc' =>
      List.Forall₂ (fun vh vh' =>
        List.Forall₂ (fun rt rt' =>
          ∀ c, routeCluster rt = some c → tunnelingEligible extBase c = true →
            rt' = rewriteRoute rt (selfClusterName c))
          vh.routes vh'.routes)
        rc.virtualHosts rc'.virtualHosts)
      [rcOf [rtTo "c1", rtTo "c1"]]
      (GeneratedResources extBase 0 [clNamed "c1" (some tlsA)] []
        [rcOf [rtTo "c1", rtTo "c1"]] []).routeConfigurations :=
  ⟨claim_C5.1 extBase 0 { st0 with processedClusters := ["c1"] } (rtTo "c1") "c1"
     (by decide) (by decide),
   claim_C5.2 extBase 0 [clNamed "c1" (some tlsA)] [] [rcOf [rtTo "c1", rtTo "c1"]] []
     (by decide)⟩

/-- C1: in a pass that completes without aborting, every distinct original
cluster name referenced by at least one tunneling-eligible route gets exactly
one generated self cluster and exactly one generated self listener, no matter
how many routes reference it. -/
theorem claim_C1 :
    ∀ (ext : Externals) (secrets : Secrets) (inClusters : List Cluster)
      (inEndpoints : List ClusterLoadAssignment) (rcs : List RouteConfiguration)
      (inListeners : List Listener) (c : String),
    scanCompleted ext secrets inClusters rcs = true →
    c ∈ routeRefs rcs →
    tunnelingEligible ext c = true →
    (((GeneratedResources ext secrets inClusters inEndpoints rcs
        inListeners).ret.retClusters.getD []).map Cluster.name).count (selfClusterName c) = 1 ∧
    (((GeneratedResources ext secrets inClusters inEndpoints rcs
        inListeners).ret.retListeners.getD []).map Listener.name).count
      (selfListenerName c) = 1 := by
  intro ext secrets inClusters inEndpoints rcs inListeners c hdone hmem hel
  obtain ⟨rcs', st', hscan⟩ := scanCompleted_iff.mp hdone
  rw [GeneratedResources_cont hscan]
  obtain ⟨hg1, hg2, hnd⟩ :=
    scan_invNames_cont ext secrets (initState inClusters) rcs rcs' st' hscan
      (initState_invNames inClusters)
  have hproc : c ∈ st'.processedClusters := mem_processed_of_completed hscan hmem hel
  constructor
  · show (st'.generatedClusters.map Cluster.name).count (selfClusterName c) = 1
    rw [hg1]
    exact List.count_eq_one_of_mem (hnd.map selfClusterName_injective2)
      (List.mem_map_of_mem selfClusterName hproc)
  · show (st'.generatedListeners.map Listener.name).count (selfListenerName c) = 1
    rw [hg2]
    exact List.count_eq_one_of_mem (hnd.map selfListenerName_injective2)
      (List.mem_map_of_mem selfListenerName hproc)

/-- Witness for C1: two routes to `c1` in different virtual hosts still produce
exactly one self cluster and one self listener for `c1`. -/
theorem claim_C1_witness :
    (((GeneratedResources extBase 0 [clNamed "c1" (some tlsA)] []
        [{ name := "rc"
           virtualHosts := [{ name := "vh1", routes := [rtTo "c1"] },
                            { name := "vh2", routes := [rtTo "c1"] }] }]
        []).ret.retClusters.getD []).map Cluster.name).count (selfClusterName "c1") = 1 ∧
    (((GeneratedResources extBase 0 [clNamed "c1" (some tlsA)] []
        [{ name := "rc"
           virtualHosts := [{ name := "vh1", routes := [rtTo "c1"] },
                            { name := "vh2", routes := [rtTo "c1"] }] }]
        []).ret.retListeners.getD []).map Listener.name).count (selfListenerName "c1") = 1 :=
  claim_C1 extBase 0 [clNamed "c1" (some tlsA)] []
    [{ name := "rc"
       virtualHosts := [{ name := "vh1", routes := [rtTo "c1"] },
                        { name := "vh2", routes := [rtTo "c1"] }] }]
    [] "c1" (by decide) (by decide) (by decide)

/-- C2: after a completed pass, the original cluster of a tunneling-eligible
route ends with no transport socket (and cleared socket matches) when the
upstream has no tunnel SSL descriptor, or with the re-originated TLS socket
when it does; the generated self cluster carries the pre-mutation socket
verbatim in both cases. -/
theorem claim_C2 :
    ∀ (ext : Externals) (secrets : Secrets) (inClusters : List Cluster)
      (inEndpoints : List ClusterLoadAssignment) (rcs : List RouteConfiguration)
      (inListeners : List Listener) (c : String) (cl₀ : Cluster) (us : Upstream),
    scanCompleted ext secrets inClusters rcs = true →
    c ∈ routeRefs rcs →
    tunnelingEligible ext c = true →
    findCluster c inClusters = some cl₀ →
    upstreamFor ext c = some us →
    ((us.httpConnectSslConfig = none →
        findCluster c (GeneratedResources ext secrets inClusters inEndpoints rcs
          inListeners).clusters = some (stripCluster cl₀)) ∧
     (∀ ssl cfg t, us.httpConnectSslConfig = some ssl →
        ext.resolveUpstreamSslConfig secrets ssl = some cfg →
        ext.messageToAny (.tlsContext cfg) = .ok t →
        findCluster c (GeneratedResources ext secrets inClusters inEndpoints rcs
          inListeners).clusters =
          some { stripCluster cl₀ with
                  transportSocket := some { name := transportSocketTls
                                            typedConfig := some t } }) ∧
     ((GeneratedResources ext secrets inClusters inEndpoints rcs
        inListeners).ret.retClusters.getD []).filter
          (fun x => x.name == selfClusterName c) =
       [generateSelfCluster (selfClusterName c) (selfPipeName c) cl₀.transportSocket]) := by
  intro ext secrets inClusters inEndpoints rcs inListeners c cl₀ us hdone hmem hel hfc hu
  obtain ⟨rcs', st', hscan⟩ := scanCompleted_iff.mp hdone
  rw [GeneratedResources_cont hscan]
  obtain ⟨hgen, -, hprocAll⟩ :=
    scan_inv_cont ext secrets inClusters (initState inClusters) rcs rcs' st' hscan
      (initState_inv ext secrets inClusters)
  obtain ⟨-, -, hnd⟩ :=
    scan_invNames_cont ext secrets (initState inClusters) rcs rcs' st' hscan
      (initState_invNames inClusters)
  have hproc : c ∈ st'.processedClusters := mem_processed_of_completed hscan hmem hel
  obtain ⟨-, hsomeCase⟩ := hprocAll c hproc
  obtain ⟨ts, hfind, us2, hu2, hspec⟩ := hsomeCase cl₀ hfc
  rw [hu] at hu2
  injection hu2 with hu2
  subst hu2
  refine ⟨?_, ?_, ?_⟩
  · intro hssl
    rcases hspec with ⟨-, rfl⟩ | ⟨ssl, cfg, t, hssl2, -, -, -⟩
    · exact hfind
    · rw [hssl] at hssl2
      cases hssl2
  · intro ssl cfg t hssl hres hser
    rcases hspec with ⟨hssl2, -⟩ | ⟨ssl2, cfg2, t2, hssl2, hres2, hser2, rfl⟩
    · rw [hssl] at hssl2
      cases hssl2
    · rw [hssl] at hssl2
      injection hssl2 with h1
      subst h1
      rw [hres] at hres2
      injection hres2 with h2
      subst h2
      rw [hser] at hser2
      injection hser2 with h3
      subst h3
      exact hfind
  · show st'.generatedClusters.filter (fun x => x.name == selfClusterName c) = _
    rw [hgen, filter_map_selfName
      (fun d => generateSelfCluster (selfClusterName d) (selfPipeName d) (origTS inClusters d))
      (fun d => rfl) hnd hproc]
    simp only [origTS, hfc]

/-- Witness for C2: without a tunnel SSL descriptor `c1` is stripped, with one
`c3` carries the re-originated TLS socket, and in both scenarios the generated
self cluster carries the original `tlsA` socket. -/
theorem claim_C2_witness :
    findCluster "c1" (GeneratedResources extBase 0 [clNamed "c1" (some tlsA)] []
      [rcOf [rtTo "c1"]] []).clusters = some (stripCluster (clNamed "c1" (some tlsA))) ∧
    findCluster "c3" (GeneratedResources extBase 0 [clNamed "c3" (some tlsA)] []
      [rcOf [rtTo "c3"]] []).clusters =
      some { stripCluster (clNamed "c3" (some tlsA)) with
              transportSocket := some { name := transportSocketTls
                                        typedConfig := some { blob := "blob" } } } ∧
    ((GeneratedResources extBase 0 [clNamed "c3" (some tlsA)] [] [rcOf [rtTo "c3"]]
        []).ret.retClusters.getD []).filter (fun x => x.name == selfClusterName "c3") =
      [generateSelfCluster (selfClusterName "c3") (selfPipeName "c3")
        (clNamed "c3" (some tlsA)).transportSocket] :=
  ⟨(claim_C2 extBase 0 [clNamed "c1" (some tlsA)] [] [rcOf [rtTo "c1"]] [] "c1"
      (clNamed "c1" (some tlsA)) usPlain (by decide) (by decide) (by decide) (by decide)
      (by decide)).1 rfl,
   (claim_C2 extBase 0 [clNamed "c3" (some tlsA)] [] [rcOf [rtTo "c3"]] [] "c3"
      (clNamed "c3" (some tlsA)) usSsl (by decide) (by decide) (by decide) (by decide)
      (by decide)).2.1 { token := 1 } { token := 7 } { blob := "blob" } rfl rfl rfl,
   (claim_C2 extBase 0 [clNamed "c3" (some tlsA)] [] [rcOf [rtTo "c3"]] [] "c3"
      (clNamed "c3" (some tlsA)) usSsl (by decide) (by decide) (by decide) (by decide)
      (by decide)).2.2⟩

theorem GeneratedResources_soft {ext : Externals} {secrets : Secrets}
    {inClusters : List Cluster} {inEndpoints : List ClusterLoadAssignment}
    {rcs rcs' : List RouteConfiguration} {inListeners : List Listener} {st' : ScanState}
    (h : scanRouteConfigurations ext secrets (initState inClusters) rcs =
      .softAbort rcs' st') :
    GeneratedResources ext secrets inClusters inEndpoints rcs inListeners =
      { routeConfigurations := rcs'
        clusters := st'.clusters
        ret := { retClusters := some st'.generatedClusters
                 retEndpoints := none
                 retRouteConfigurations := none
                 retListeners := some st'.generatedListeners
                 retError := none } } := by
  unfold GeneratedResources
  rw [h]

theorem GeneratedResources_hard {ext : Externals} {secrets : Secrets}
    {inClusters : List Cluster} {inEndpoints : List ClusterLoadAssignment}
    {rcs rcs' : List RouteConfiguration} {inListeners : List Listener} {st' : ScanState}
    {e : String}
    (h : scanRouteConfigurations ext secrets (initState inClusters) rcs =
      .hardError rcs' st' e) :
    GeneratedResources ext secrets inClusters inEndpoints rcs inListeners =
      { routeConfigurations := rcs'
        clusters := st'.clusters
        ret := { retClusters := none
                 retEndpoints := none
                 retRouteConfigurations := none
                 retListeners := none
                 retError := some e } } := by
  unfold GeneratedResources
  rw [h]

/-- Counterexample to C8 as stated: with every name eligible, the first pass
over `rcs8` completes and processes the cluster named
`solo_io_generated_self_cluster_d` (referenced by a route) as well as `d`;
because the self cluster generated for `d` carries that same name, the second
pass — fed the first pass's own output — generates an additional self cluster
and self listener for `solo_io_generated_self_cluster_d`, a cluster already
processed in the first pass. -/
theorem claim_C8_counterexample :
    scanCompleted extAll 0 [] rcs8 = true ∧
    xName ∈ processedOf extAll 0 [] rcs8 ∧
    selfClusterName xName ∈ (out2C8.ret.retClusters.getD []).map Cluster.name ∧
    selfListenerName xName ∈ (out2C8.ret.retListeners.getD []).map Listener.name := by
  refine ⟨by decide, by decide, by decide, by decide⟩

/-- C8 (amended): re-running the plugin on its own completed output produces no
additional self cluster or self listener for a cluster processed in the first
pass, provided no cluster name processed in the first pass is itself the
self-cluster name of a processed cluster (the unamended claim fails when an
original cluster name collides with the generated namespace, see the
counterexample). -/
theorem claim_C8 :
    ∀ (ext : Externals) (secrets : Secrets) (inClusters : List Cluster)
      (inEndpoints : List ClusterLoadAssignment) (rcs : List RouteConfiguration)
      (inListeners : List Listener) (c : String),
    scanCompleted ext secrets inClusters rcs = true →
    (∀ d, d ∈ processedOf ext secrets inClusters rcs →
      selfClusterName d ∉ processedOf ext secrets inClusters rcs) →
    c ∈ processedOf ext secrets inClusters rcs →
    (selfClusterName c ∉
      ((GeneratedResources ext secrets
        ((GeneratedResources ext secrets inClusters inEndpoints rcs inListeners).clusters ++
          ((GeneratedResources ext secrets inClusters inEndpoints rcs
            inListeners).ret.retClusters.getD []))
        inEndpoints
        (GeneratedResources ext secrets inClusters inEndpoints rcs
          inListeners).routeConfigurations
        (inListeners ++ ((GeneratedResources ext secrets inClusters inEndpoints rcs
          inListeners).ret.retListeners.getD []))).ret.retClusters.getD []).map Cluster.name ∧
     selfListenerName c ∉
      ((GeneratedResources ext secrets
        ((GeneratedResources ext secrets inClusters inEndpoints rcs inListeners).clusters ++
          ((GeneratedResources ext secrets inClusters inEndpoints rcs
            inListeners).ret.retClusters.getD []))
        inEndpoints
        (GeneratedResources ext secrets inClusters inEndpoints rcs
          inListeners).routeConfigurations
        (inListeners ++ ((GeneratedResources ext secrets inClusters inEndpoints rcs
          inListeners).ret.retListeners.getD []))).ret.retListeners.getD []).map
        Listener.name) := by
  intro ext secrets inClusters inEndpoints rcs inListeners c hdone hproviso hcp
  obtain ⟨rcs', st', hscan⟩ := scanCompleted_iff.mp hdone
  have hPO : processedOf ext secrets inClusters rcs = st'.processedClusters := by
    unfold processedOf
    rw [hscan]
    rfl
  rw [hPO] at hproviso hcp
  rw [GeneratedResources_cont hscan]
  dsimp only [Option.getD_some]
  have key : ∀ (st₂ : ScanState), InvNames st₂ →
      (∀ d, d ∈ st₂.processedClusters →
        d ∈ routeRefs rcs' ∧ tunnelingEligible ext d = true) →
      selfClusterName c ∉ st₂.generatedClusters.map Cluster.name ∧
      selfListenerName c ∉ st₂.generatedListeners.map Listener.name := by
    intro st₂ hin hsub
    obtain ⟨hg1, hg2, -⟩ := hin
    have hcnot : c ∉ st₂.processedClusters := by
      intro he
      obtain ⟨hrefs2, hel⟩ := hsub c he
      rcases scan_outRefs ext secrets (initState inClusters) rcs rcs' st' hscan
          c hrefs2 with ⟨-, hnel⟩ | ⟨d, hd, held, heq2⟩
      · exact hnel hel
      · exact hproviso d ((processed_eq_of_completed hscan).mpr ⟨hd, held⟩) (heq2 ▸ hcp)
    constructor
    · rw [hg1]
      intro hin2
      obtain ⟨e, he, heq⟩ := List.mem_map.mp hin2
      exact hcnot (selfClusterName_injective heq ▸ he)
    · rw [hg2]
      intro hin2
      obtain ⟨e, he, heq⟩ := List.mem_map.mp hin2
      exact hcnot (selfListenerName_injective heq ▸ he)
  cases hscan2 : scanRouteConfigurations ext secrets
      (initState (st'.clusters ++ st'.generatedClusters)) rcs' with
  | cont rcs₂ st₂ =>
    rw [GeneratedResources_cont hscan2]
    exact key st₂
      (scan_invNames_cont ext secrets (initState (st'.clusters ++ st'.generatedClusters))
        rcs' rcs₂ st₂ hscan2 (initState_invNames _))
      (fun d hd => by
        rcases scan_procSub ext secrets (initState (st'.clusters ++ st'.generatedClusters))
            rcs' rcs₂ st₂ (Or.inl hscan2) d hd with h0 | h1
        · exact absurd h0 (List.not_mem_nil d)
        · exact h1)
  | softAbort rcs₂ st₂ =>
    rw [GeneratedResources_soft hscan2]
    exact key st₂
      (scan_invNames_soft ext secrets (initState (st'.clusters ++ st'.generatedClusters))
        rcs' rcs₂ st₂ hscan2 (initState_invNames _))
      (fun d hd => by
        rcases scan_procSub ext secrets (initState (st'.clusters ++ st'.generatedClusters))
            rcs' rcs₂ st₂ (Or.inr hscan2) d hd with h0 | h1
        · exact absurd h0 (List.not_mem_nil d)
        · exact h1)
  | hardError rcs₂ st₂ e =>
    rw [GeneratedResources_hard hscan2]
    simp

/-- Witness for the amended C8: re-running on the completed output for a single
route to `c1` yields no second self cluster or self listener for `c1`. -/
theorem claim_C8_witness :
    selfClusterName "c1" ∉
      ((GeneratedResources extBase 0
        ((GeneratedResources extBase 0 [clNamed "c1" (some tlsA)] [] [rcOf [rtTo "c1"]]
          []).clusters ++
          ((GeneratedResources extBase 0 [clNamed "c1" (some tlsA)] [] [rcOf [rtTo "c1"]]
            []).ret.retClusters.getD []))
        []
        (GeneratedResources extBase 0 [clNamed "c1" (some tlsA)] [] [rcOf [rtTo "c1"]]
          []).routeConfigurations
        ([] ++ ((GeneratedResources extBase 0 [clNamed "c1" (some tlsA)] []
          [rcOf [rtTo "c1"]] []).ret.retListeners.getD []))).ret.retClusters.getD []).map
        Cluster.name ∧
    selfListenerName "c1" ∉
      ((GeneratedResources extBase 0
        ((GeneratedResources extBase 0 [clNamed "c1" (some tlsA)] [] [rcOf [rtTo "c1"]]
          []).clusters ++
          ((GeneratedResources extBase 0 [clNamed "c1" (some tlsA)] [] [rcOf [rtTo "c1"]]
            []).ret.retClusters.getD []))
        []
        (GeneratedResources extBase 0 [clNamed "c1" (some tlsA)] [] [rcOf [rtTo "c1"]]
          []).routeConfigurations
        ([] ++ ((GeneratedResources extBase 0 [clNamed "c1" (some tlsA)] []
          [rcOf [rtTo "c1"]] []).ret.retListeners.getD []))).ret.retListeners.getD []).map
        Listener.name :=
  claim_C8 extBase 0 [clNamed "c1" (some tlsA)] [] [rcOf [rtTo "c1"]] [] "c1"
    (by decide)
    (by
      intro d hd
      have hp : processedOf extBase 0 [clNamed "c1" (some tlsA)] [rcOf [rtTo "c1"]] =
          ["c1"] := by decide
      rw [hp] at hd ⊢
      rw [List.mem_singleton] at hd
      subst hd
      decide)
    (by decide)

end Tunneling
